import Mathlib

/-!
# Triangle meshes and the linear aggregate of the `min` renderer

A shallow embedding of `src/min/shapes/triangle.h` and
`src/min/accelerators/naive.cc`.

Conventions of the embedding.

* `Float` is the field of rationals: every theorem below is a statement under
  exact arithmetic.  Rounding, overflow, infinities and NaN are not modelled.
  A division by zero (which only a ray of zero direction produces in
  `Triangle::Intersect`) evaluates to `0` here, whereas IEEE arithmetic yields
  an infinity or a NaN; results about such a ray speak of the model only.
* `Point3f`, `Vector3f` and `Normal3f` are one record of three coordinates.
* `int` counts and vertex indices are natural numbers; face ids are integers.
* A possibly-null array pointer is an `Option` of a list.  Reading an array
  outside its extent is undefined behaviour in the source; the model reads a
  zero there.
* A non-const reference parameter (`SurfaceIntersection &isect`) is passed in
  and returned: `Intersect` yields the boolean together with the record.
* Headers that are not part of the covered sources (`sqrt`, the coordinate
  system of a `Frame`, `Transform`, `Bounds3f`) are parameters or are modelled
  from the specification, each marked as such.
-/

namespace Min

/-- The scalar type of the renderer, taken exact. -/
abbrev Float := ℚ

/-! ## Vectors -/

/-- Three coordinates: stands for `Vector3f`, `Point3f` and `Normal3f`. -/
@[ext] structure Vector3f where
  x : Float
  y : Float
  z : Float
  deriving DecidableEq

abbrev Point3f := Vector3f
abbrev Normal3f := Vector3f

/-- Two coordinates: `Point2f`. -/
@[ext] structure Point2f where
  x : Float
  y : Float
  deriving DecidableEq

namespace Vector3f

instance : Zero Vector3f := ⟨⟨0, 0, 0⟩⟩
instance : Add Vector3f := ⟨fun a b => ⟨a.x + b.x, a.y + b.y, a.z + b.z⟩⟩
instance : Sub Vector3f := ⟨fun a b => ⟨a.x - b.x, a.y - b.y, a.z - b.z⟩⟩
instance : Neg Vector3f := ⟨fun a => ⟨-a.x, -a.y, -a.z⟩⟩
instance : HMul Float Vector3f Vector3f := ⟨fun c a => ⟨c * a.x, c * a.y, c * a.z⟩⟩
instance : HDiv Vector3f Float Vector3f := ⟨fun a c => ⟨a.x / c, a.y / c, a.z / c⟩⟩

/-- Component access `v[i]`: 0 is x, 1 is y, anything else z. -/
def get (v : Vector3f) (i : Nat) : Float :=
  if i = 0 then v.x else if i = 1 then v.y else v.z

end Vector3f

instance : Add Point2f := ⟨fun a b => ⟨a.x + b.x, a.y + b.y⟩⟩
instance : HMul Float Point2f Point2f := ⟨fun c a => ⟨c * a.x, c * a.y⟩⟩

/-- Componentwise absolute value. -/
def Abs (v : Vector3f) : Vector3f := ⟨|v.x|, |v.y|, |v.z|⟩

/-- `Permute(v, Vector3i(kx, ky, kz))`. -/
def Permute (v : Vector3f) (kx ky kz : Nat) : Vector3f :=
  ⟨v.get kx, v.get ky, v.get kz⟩

/-- Cross product. -/
def Cross (a b : Vector3f) : Vector3f :=
  ⟨a.y * b.z - a.z * b.y, a.z * b.x - a.x * b.z, a.x * b.y - a.y * b.x⟩

/-- Dot product. -/
def Dot (a b : Vector3f) : Float := a.x * b.x + a.y * b.y + a.z * b.z

/-- Squared Euclidean length. -/
def Vector3f.LengthSquared (v : Vector3f) : Float := v.x * v.x + v.y * v.y + v.z * v.z

/-- What the covered sources use from outside: the square root of the scalar
type and the rule by which a `Frame` completes a normal to a basis. -/
structure Externals where
  sqrt : Float → Float
  coordinateSystem : Vector3f → Vector3f × Vector3f

/-- Modelled from the spec: `Length` is missing from the sources; the
magnitude of a vector is the square root of its squared length. -/
def Vector3f.Length (env : Externals) (v : Vector3f) : Float := env.sqrt v.LengthSquared

/-- Modelled from the spec: `Normalize` is missing from the sources; a vector
divided by its length. -/
def Normalize (env : Externals) (v : Vector3f) : Vector3f := v / v.Length env

/-! ## Rays, frames, intersection records -/

structure Ray where
  o : Point3f
  d : Vector3f
  tmax : Float
  time : Float
  deriving DecidableEq

/-- An orthonormal basis `(s, t, n)`. -/
structure Frame where
  s : Vector3f
  t : Vector3f
  n : Vector3f
  deriving DecidableEq

/-- Modelled from the spec: the constructor `Frame(n)` is missing from the
sources; a basis built from a single normal `n`, with `s` and `t` a pure
function of `n`. -/
def Frame.ofNormal (env : Externals) (n : Vector3f) : Frame :=
  ⟨(env.coordinateSystem n).1, (env.coordinateSystem n).2, n⟩

/-! ## Meshes -/

/-- Modelled from the spec: `Transform` is missing from the sources; distinct
application rules for points, vectors and normals. -/
structure Transform where
  ToPoint : Point3f → Point3f
  ToVector : Vector3f → Vector3f
  ToNormal : Normal3f → Normal3f

/-- The identity transform. -/
def Transform.identity : Transform := ⟨id, id, id⟩

structure TriangleMesh where
  triangles_num : Nat
  vertices_num : Nat
  vertex_indices : List Nat
  p : List Point3f
  n : Option (List Normal3f)
  s : Option (List Vector3f)
  uv : Option (List Point2f)
  face_indices : List Int
  deriving DecidableEq

/-- The constructor `TriangleMesh::TriangleMesh`. -/
def TriangleMesh.create (ObjectToWorld : Transform) (nTriangles : Nat)
    (vertexIndices : List Nat) (nVertices : Nat) (P : List Point3f)
    (S : Option (List Vector3f)) (N : Option (List Normal3f))
    (UV : Option (List Point2f)) (fIndices : Option (List Int)) : TriangleMesh :=
  { triangles_num := nTriangles
    vertices_num := nVertices
    vertex_indices := vertexIndices.take (3 * nTriangles)
    p := (P.take nVertices).map ObjectToWorld.ToPoint
    uv := UV.map (fun a => a.take nVertices)
    n := N.map (fun a => (a.take nVertices).map ObjectToWorld.ToNormal)
    s := S.map (fun a => (a.take nVertices).map ObjectToWorld.ToVector)
    face_indices := match fIndices with
      | some f => f.take nTriangles
      | none => [] }

/-- A triangle: its mesh, the position `v` of its first index in
`vertex_indices`, and its face id. -/
structure Triangle where
  mesh : TriangleMesh
  v : Nat
  face_index : Int
  deriving DecidableEq

namespace Triangle

/-- The constructor `Triangle::Triangle(…, mesh, triNumber)`. -/
def create (mesh : TriangleMesh) (triNumber : Nat) : Triangle :=
  { mesh := mesh
    v := 3 * triNumber
    face_index := if mesh.face_indices.length ≠ 0 then mesh.face_indices.getD triNumber 0 else 0 }

/-- The vertex index `v[i]`. -/
def vi (tri : Triangle) (i : Nat) : Nat := tri.mesh.vertex_indices.getD (tri.v + i) 0

/-- The position `mesh->p[v[i]]`. -/
def P (tri : Triangle) (i : Nat) : Point3f := tri.mesh.p.getD (tri.vi i) 0

end Triangle

structure SurfaceIntersection where
  p : Point3f
  wo : Vector3f
  time : Float
  shape : Option Triangle
  face_index : Int
  geo_frame : Frame
  shading_frame : Frame
  deriving DecidableEq

/-! ## `Triangle::Intersect` -/

/-- The successor of an axis, as in `int kx = kz + 1; if (kx == 3) kx = 0;`. -/
def nextAxis (k : Nat) : Nat := if k + 1 = 3 then 0 else k + 1

/-- The projection axis `kz` (line 87). -/
def chooseKz (d : Vector3f) : Nat :=
  let rayd := Abs d
  if rayd.x > rayd.y then (if rayd.x > rayd.z then 0 else 2)
  else (if rayd.y > rayd.z then 1 else 2)

/-- The shear of lines 96-104 applied to one translated, permuted vertex:
`x += Sx * z`, `y += Sy * z`, with `Sx = -d.x / d.z` and `Sy = -d.y / d.z`. -/
def shear (d q : Vector3f) : Vector3f :=
  let Sx := -d.x / d.z
  let Sy := -d.y / d.z
  ⟨q.x + Sx * q.z, q.y + Sy * q.z, q.z⟩

/-- The local variables of `Triangle::Intersect` that the hit decision and the
record are computed from. -/
structure IntersectLocals where
  kx : Nat
  ky : Nat
  kz : Nat
  d : Vector3f
  p0t : Point3f
  p1t : Point3f
  p2t : Point3f
  e0 : Float
  e1 : Float
  e2 : Float
  det : Float
  tScaled : Float
  invDet : Float
  b0 : Float
  b1 : Float
  b2 : Float
  t : Float

namespace Triangle

/-- Lines 80-124 of `Triangle::Intersect` with the early returns left out: the
value every local has once its line is reached. -/
def locals (tri : Triangle) (ray : Ray) : IntersectLocals :=
  let p0 := tri.P 0
  let p1 := tri.P 1
  let p2 := tri.P 2
  let p0t := p0 - ray.o
  let p1t := p1 - ray.o
  let p2t := p2 - ray.o
  let kz := chooseKz ray.d
  let kx := nextAxis kz
  let ky := nextAxis kx
  let d := Permute ray.d kx ky kz
  let p0t := Permute p0t kx ky kz
  let p1t := Permute p1t kx ky kz
  let p2t := Permute p2t kx ky kz
  let Sz := 1 / d.z
  let p0t := shear d p0t
  let p1t := shear d p1t
  let p2t := shear d p2t
  let e0 := p1t.x * p2t.y - p1t.y * p2t.x
  let e1 := p2t.x * p0t.y - p2t.y * p0t.x
  let e2 := p0t.x * p1t.y - p0t.y * p1t.x
  let det := e0 + e1 + e2
  let p0t : Point3f := ⟨p0t.x, p0t.y, p0t.z * Sz⟩
  let p1t : Point3f := ⟨p1t.x, p1t.y, p1t.z * Sz⟩
  let p2t : Point3f := ⟨p2t.x, p2t.y, p2t.z * Sz⟩
  let tScaled := e0 * p0t.z + e1 * p1t.z + e2 * p2t.z
  let invDet := 1 / det
  { kx := kx, ky := ky, kz := kz, d := d, p0t := p0t, p1t := p1t, p2t := p2t
    e0 := e0, e1 := e1, e2 := e2, det := det, tScaled := tScaled, invDet := invDet
    b0 := e0 * invDet, b1 := e1 * invDet, b2 := e2 * invDet, t := tScaled * invDet }

/-- `GetUVs`. -/
def GetUVs (tri : Triangle) : Point2f × Point2f × Point2f :=
  match tri.mesh.uv with
  | some uv => (uv.getD (tri.vi 0) ⟨0, 0⟩, uv.getD (tri.vi 1) ⟨0, 0⟩, uv.getD (tri.vi 2) ⟨0, 0⟩)
  | none => (⟨0, 0⟩, ⟨1, 0⟩, ⟨1, 1⟩)

/-- The record written on a hit (lines 126-146). -/
def hitRecord (env : Externals) (tri : Triangle) (ray : Ray) : SurfaceIntersection :=
  let l := tri.locals ray
  let p0 := tri.P 0
  let p1 := tri.P 1
  let p2 := tri.P 2
  let pHit : Point3f := l.b0 * p0 + l.b1 * p1 + l.b2 * p2
  let geo_frame := Frame.ofNormal env (Normalize env (Cross (p0 - p2) (p1 - p2)))
  let shading_frame :=
    match tri.mesh.n with
    | some n =>
      let ns := Normalize env
        (l.b0 * n.getD (tri.vi 0) 0 + l.b1 * n.getD (tri.vi 1) 0 + l.b2 * n.getD (tri.vi 2) 0)
      if ns.LengthSquared > 0 then Frame.ofNormal env ns else geo_frame
    | none => geo_frame
  { p := pHit
    wo := -ray.d
    time := ray.time
    shape := some tri
    face_index := tri.face_index
    geo_frame := geo_frame
    shading_frame := shading_frame }

/-- `Triangle::Intersect`: the returned boolean and the record after the call. -/
def Intersect (env : Externals) (tri : Triangle) (ray : Ray) (isect : SurfaceIntersection) :
    Bool × SurfaceIntersection :=
  let l := tri.locals ray
  if (l.e0 < 0 ∨ l.e1 < 0 ∨ l.e2 < 0) ∧ (l.e0 > 0 ∨ l.e1 > 0 ∨ l.e2 > 0) then (false, isect)
  else if l.det = 0 then (false, isect)
  else if l.det < 0 ∧ (l.tScaled ≥ 0 ∨ l.tScaled < ray.tmax * l.det) then (false, isect)
  else if l.det > 0 ∧ (l.tScaled ≤ 0 ∨ l.tScaled > ray.tmax * l.det) then (false, isect)
  else (true, tri.hitRecord env ray)

end Triangle

namespace Triangle

/-- The vertex `i` seen from the ray origin: `p_i - o` (lines 83-85). -/
def q (tri : Triangle) (ray : Ray) (i : Nat) : Vector3f := tri.P i - ray.o

/-- The component of the direction on the projection axis: the divisor `d.z`
of lines 96-98. -/
def dz (ray : Ray) : Float := ray.d.get (chooseKz ray.d)

/-- The plane normal before normalisation, as `Area` forms it:
`Cross(p1 - p0, p2 - p0)`. -/
def crossN (tri : Triangle) : Vector3f := Cross (tri.P 1 - tri.P 0) (tri.P 2 - tri.P 0)

end Triangle

/-- The scalar triple product `a · (b × c)`. -/
def triple (a b c : Vector3f) : Float := Dot a (Cross b c)

/-- The four guards of lines 108-119 as a condition on the edge functions, the
scaled distance and `tmax`, with `det = e0 + e1 + e2`: it holds when none of
the early returns is taken. -/
def passes (e0 e1 e2 tScaled tmax : Float) : Prop :=
  ¬ ((e0 < 0 ∨ e1 < 0 ∨ e2 < 0) ∧ (e0 > 0 ∨ e1 > 0 ∨ e2 > 0)) ∧
  e0 + e1 + e2 ≠ 0 ∧
  ¬ (e0 + e1 + e2 < 0 ∧ (tScaled ≥ 0 ∨ tScaled < tmax * (e0 + e1 + e2))) ∧
  ¬ (e0 + e1 + e2 > 0 ∧ (tScaled ≤ 0 ∨ tScaled > tmax * (e0 + e1 + e2)))

/-- Two triangles are treated alike by a ray: the guards decide the same, the
computed distance and hit point are the same, and the cross product that the
geometric normal is made from is the same up to sign. -/
def Triangle.sameHit (tri' tri : Triangle) (ray : Ray) : Prop :=
  (passes (tri'.locals ray).e0 (tri'.locals ray).e1 (tri'.locals ray).e2
      (tri'.locals ray).tScaled ray.tmax ↔
    passes (tri.locals ray).e0 (tri.locals ray).e1 (tri.locals ray).e2
      (tri.locals ray).tScaled ray.tmax) ∧
  (tri'.locals ray).t = (tri.locals ray).t ∧
  (tri'.locals ray).b0 * tri'.P 0 + (tri'.locals ray).b1 * tri'.P 1 +
      (tri'.locals ray).b2 * tri'.P 2 =
    (tri.locals ray).b0 * tri.P 0 + (tri.locals ray).b1 * tri.P 1 +
      (tri.locals ray).b2 * tri.P 2 ∧
  (Cross (tri'.P 0 - tri'.P 2) (tri'.P 1 - tri'.P 2) = Cross (tri.P 0 - tri.P 2) (tri.P 1 - tri.P 2) ∨
    Cross (tri'.P 0 - tri'.P 2) (tri'.P 1 - tri'.P 2) =
      -Cross (tri.P 0 - tri.P 2) (tri.P 1 - tri.P 2))

/-! ## Bounds -/

/-- Modelled from the spec: `Bounds3f` is missing from the sources; an
axis-aligned box given by its minimum and its maximum corner. -/
@[ext] structure Bounds3f where
  pMin : Point3f
  pMax : Point3f
  deriving DecidableEq

/-- Modelled from the spec: the constructor `Bounds3f(p1, p2)` is missing from
the sources; the axis-aligned bounding box of two points. -/
def Bounds3f.ofPoints (p1 p2 : Point3f) : Bounds3f :=
  ⟨⟨min p1.x p2.x, min p1.y p2.y, min p1.z p2.z⟩, ⟨max p1.x p2.x, max p1.y p2.y, max p1.z p2.z⟩⟩

/-- Modelled from the spec: `Union(b, p)` is missing from the sources; the
axis-aligned bounding box of a box and a point. -/
def Union (b : Bounds3f) (p : Point3f) : Bounds3f :=
  ⟨⟨min b.pMin.x p.x, min b.pMin.y p.y, min b.pMin.z p.z⟩,
   ⟨max b.pMax.x p.x, max b.pMax.y p.y, max b.pMax.z p.z⟩⟩

/-- Modelled from the spec: `Union(b1, b2)` is missing from the sources; the
axis-aligned bounding box of two boxes. -/
def UnionBounds (b1 b2 : Bounds3f) : Bounds3f :=
  ⟨⟨min b1.pMin.x b2.pMin.x, min b1.pMin.y b2.pMin.y, min b1.pMin.z b2.pMin.z⟩,
   ⟨max b1.pMax.x b2.pMax.x, max b1.pMax.y b2.pMax.y, max b1.pMax.z b2.pMax.z⟩⟩

/-- A point lies in a box. -/
def Bounds3f.Contains (b : Bounds3f) (p : Point3f) : Prop :=
  b.pMin.x ≤ p.x ∧ p.x ≤ b.pMax.x ∧ b.pMin.y ≤ p.y ∧ p.y ≤ b.pMax.y ∧
    b.pMin.z ≤ p.z ∧ p.z ≤ b.pMax.z

namespace Triangle

/-- `Triangle::WorldBound`. -/
def WorldBound (tri : Triangle) : Bounds3f :=
  Union (Bounds3f.ofPoints (tri.P 0) (tri.P 1)) (tri.P 2)

/-- `Triangle::Area`. -/
def Area (env : Externals) (tri : Triangle) : Float :=
  (1 / 2) * (Cross (tri.P 1 - tri.P 0) (tri.P 2 - tri.P 0)).Length env

end Triangle

/-- `CreateTriangleMesh`: one triangle per face over one shared mesh. -/
def CreateTriangleMesh (object2world _world2object : Transform) (nTriangles : Nat)
    (vertexIndices : List Nat) (nVertices : Nat) (p : List Point3f)
    (s : Option (List Vector3f)) (n : Option (List Normal3f)) (uv : Option (List Point2f))
    (faceIndices : Option (List Int)) : List Triangle :=
  let mesh := TriangleMesh.create object2world nTriangles vertexIndices nVertices p s n uv
    faceIndices
  (List.range nTriangles).map (fun i => Triangle.create mesh i)

/-! ## Shapes and the linear aggregate -/

/-- The `Shape` interface as the aggregate uses it. -/
structure Shape where
  WorldBound : Bounds3f
  Intersect : Ray → SurfaceIntersection → Bool × SurfaceIntersection

/-- A triangle seen through the `Shape` interface. -/
def Triangle.toShape (env : Externals) (tri : Triangle) : Shape :=
  ⟨tri.WorldBound, tri.Intersect env⟩

structure NaiveAccelerator where
  primitives : List Shape
  bounds : Bounds3f

namespace NaiveAccelerator

/-- `NaiveAccelerator::AddShape`. -/
def AddShape (acc : NaiveAccelerator) (shape : List Shape) : NaiveAccelerator :=
  { primitives := acc.primitives ++ shape
    bounds := acc.bounds }

/-- `NaiveAccelerator::Build`. -/
def Build (acc : NaiveAccelerator) : NaiveAccelerator :=
  { primitives := acc.primitives
    bounds := List.foldl (fun b shape => UnionBounds b shape.WorldBound) acc.bounds
      acc.primitives }

/-- The loop of `NaiveAccelerator::Intersect` over the children still to visit,
from the current `found_intersection` and record. -/
def intersectLoop (ray : Ray) :
    List Shape → Bool → SurfaceIntersection → Bool × SurfaceIntersection
  | [], found_intersection, isect => (found_intersection, isect)
  | shape :: rest, found_intersection, isect =>
    let r := shape.Intersect ray isect
    intersectLoop ray rest (if r.1 then true else found_intersection) r.2

/-- `NaiveAccelerator::Intersect`. -/
def Intersect (acc : NaiveAccelerator) (ray : Ray) (isect : SurfaceIntersection) :
    Bool × SurfaceIntersection :=
  intersectLoop ray acc.primitives false isect

/-- `NaiveAccelerator::WorldBound`. -/
def WorldBound (acc : NaiveAccelerator) : Bounds3f := acc.bounds

end NaiveAccelerator

/-- Modelled from the spec: the default constructor `Bounds3f()` is missing
from the sources; an empty box, its minimum corner at the largest finite
value `maxNum` of the scalar type and its maximum corner at the lowest,
`-maxNum`. -/
def Bounds3f.empty (maxNum : Float) : Bounds3f :=
  ⟨⟨maxNum, maxNum, maxNum⟩, ⟨-maxNum, -maxNum, -maxNum⟩⟩

/-- The box `b` reaches at least as far as the box `c` on every axis. -/
def Bounds3f.Encloses (b c : Bounds3f) : Prop :=
  b.pMin.x ≤ c.pMin.x ∧ b.pMin.y ≤ c.pMin.y ∧ b.pMin.z ≤ c.pMin.z ∧
    c.pMax.x ≤ b.pMax.x ∧ c.pMax.y ≤ b.pMax.y ∧ c.pMax.z ≤ b.pMax.z

/-- A `NaiveAccelerator` as constructed: no children, default bounds. -/
def NaiveAccelerator.fresh (maxNum : Float) : NaiveAccelerator :=
  ⟨[], Bounds3f.empty maxNum⟩

/-! ## Sample data: the scenarios of the specification -/

/-- A square root that is exact on squares of rationals. -/
def sampleSqrt (x : Float) : Float := (Nat.sqrt x.num.toNat : ℚ) / (Nat.sqrt x.den : ℚ)

/-- A sample instance of the external functions. -/
def sampleEnv : Externals := ⟨sampleSqrt, fun n => (⟨n.y, n.z, n.x⟩, ⟨n.z, n.x, n.y⟩)⟩

/-- A mesh of one face over the given three vertices, identity transform, no
tangents, uvs or face ids. -/
def oneFace (a b c : Point3f) (N : Option (List Normal3f)) : Triangle :=
  (CreateTriangleMesh Transform.identity Transform.identity 1 [0, 1, 2] 3 [a, b, c]
    none N none none).getD 0 ⟨⟨0, 0, [], [], none, none, none, []⟩, 0, 0⟩

/-- The triangle of scenario S1: `(0,0,0), (1,0,0), (0,1,0)`. -/
def triS1 : Triangle := oneFace ⟨0, 0, 0⟩ ⟨1, 0, 0⟩ ⟨0, 1, 0⟩ none

/-- The second triangle of scenario S3: `(1,0,0), (1,1,0), (0,1,0)`. -/
def triS3 : Triangle := oneFace ⟨1, 0, 0⟩ ⟨1, 1, 0⟩ ⟨0, 1, 0⟩ none

/-- The degenerate triangle of scenario S6: `p0 = p1 = (0,0,0), p2 = (1,0,0)`. -/
def triS6 : Triangle := oneFace ⟨0, 0, 0⟩ ⟨0, 0, 0⟩ ⟨1, 0, 0⟩ none

/-- A record to start from. -/
def isectInit : SurfaceIntersection :=
  ⟨0, 0, 0, none, 0, ⟨0, 0, 0⟩, ⟨0, 0, 0⟩⟩

/-- The ray of scenario S1: `o = (0.25, 0.25, 1)`, `d = (0, 0, -1)`, `tmax = 10`. -/
def rayS1 : Ray := ⟨⟨1 / 4, 1 / 4, 1⟩, ⟨0, 0, -1⟩, 10, 0⟩

/-- The ray of scenario S2: `o = (2, 2, 1)`, `d = (0, 0, -1)`. -/
def rayS2 : Ray := ⟨⟨2, 2, 1⟩, ⟨0, 0, -1⟩, 10, 0⟩

/-- The ray of scenario S3: from `(0.5, 0.5, 1)` along `-z`, at the midpoint of
the shared edge. -/
def rayS3 : Ray := ⟨⟨1 / 2, 1 / 2, 1⟩, ⟨0, 0, -1⟩, 10, 0⟩

/-- The ray of scenario S4: `o = (0.25, 0.25, -1)`, `d = (0, 0, -1)`. -/
def rayS4 : Ray := ⟨⟨1 / 4, 1 / 4, -1⟩, ⟨0, 0, -1⟩, 10, 0⟩

/-- The ray of scenario S5: `o = (0.25, 0.25, 1)`, `d = (0, 0, -1)`, `tmax = 0.5`. -/
def rayS5 : Ray := ⟨⟨1 / 4, 1 / 4, 1⟩, ⟨0, 0, -1⟩, 1 / 2, 0⟩

/-- A ray lying in the plane `z = 0` of the quad of S3, crossing the shared
edge at its midpoint `(0.5, 0.5, 0)` at `t = 1/2`. -/
def rayInPlane : Ray := ⟨⟨0, 0, 0⟩, ⟨1, 1, 0⟩, 10, 0⟩

/-- A copy of the triangle of S1 lifted to the plane `z = 1/2`, nearer to the
origin of the ray of S1. -/
def triNear : Triangle := oneFace ⟨0, 0, 1 / 2⟩ ⟨1, 0, 1 / 2⟩ ⟨0, 1, 1 / 2⟩ none

/-- The triangle of S1 with the vertex normal `(0,0,1)` at every vertex. -/
def triS1Normals : Triangle :=
  oneFace ⟨0, 0, 0⟩ ⟨1, 0, 0⟩ ⟨0, 1, 0⟩ (some [⟨0, 0, 1⟩, ⟨0, 0, 1⟩, ⟨0, 0, 1⟩])

/-- The triangle of S1 with vertex normals `(0,0,1), (0,0,-2), (0,0,0)`, whose
interpolation with the barycentrics `(1/2, 1/4, 1/4)` is the zero vector. -/
def triS1Cancel : Triangle :=
  oneFace ⟨0, 0, 0⟩ ⟨1, 0, 0⟩ ⟨0, 1, 0⟩ (some [⟨0, 0, 1⟩, ⟨0, 0, -2⟩, ⟨0, 0, 0⟩])

/-- A ray from the origin along `(1,1,0)`: `|d.x| = |d.y|`, both maximal. -/
def rayTieXY : Ray := ⟨⟨0, 0, 0⟩, ⟨1, 1, 0⟩, 10, 0⟩

/-- A ray from the origin along `(0,1,1)`: `|d.y| = |d.z|`, both maximal. -/
def rayTieYZ : Ray := ⟨⟨0, 0, 0⟩, ⟨0, 1, 1⟩, 10, 0⟩

/-- The triangle of S1 with the opposite winding: `(0,0,0), (0,1,0), (1,0,0)`. -/
def triS1Flipped : Triangle := oneFace ⟨0, 0, 0⟩ ⟨0, 1, 0⟩ ⟨1, 0, 0⟩ none

/-- A ray towards the triangle of S1 from below: `o = (0.25, 0.25, -1)`,
`d = (0, 0, 1)`, `tmax = 10`. -/
def rayFromBelow : Ray := ⟨⟨1 / 4, 1 / 4, -1⟩, ⟨0, 0, 1⟩, 10, 0⟩

/-- A slanted ray that is not of unit length: from `(1, 1, 2)` along
`(-1, -1, -4)`, it meets the plane `z = 0` at `(1/2, 1/2, 0)` at `t = 1/2`. -/
def raySlanted : Ray := ⟨⟨1, 1, 2⟩, ⟨-1, -1, -4⟩, 10, 0⟩

/-! ## Component lemmas -/

namespace Vector3f

@[simp] theorem zero_x : (0 : Vector3f).x = 0 := rfl
@[simp] theorem zero_y : (0 : Vector3f).y = 0 := rfl
@[simp] theorem zero_z : (0 : Vector3f).z = 0 := rfl
@[simp] theorem add_x (a b : Vector3f) : (a + b).x = a.x + b.x := rfl
@[simp] theorem add_y (a b : Vector3f) : (a + b).y = a.y + b.y := rfl
@[simp] theorem add_z (a b : Vector3f) : (a + b).z = a.z + b.z := rfl
@[simp] theorem sub_x (a b : Vector3f) : (a - b).x = a.x - b.x := rfl
@[simp] theorem sub_y (a b : Vector3f) : (a - b).y = a.y - b.y := rfl
@[simp] theorem sub_z (a b : Vector3f) : (a - b).z = a.z - b.z := rfl
@[simp] theorem neg_x (a : Vector3f) : (-a).x = -a.x := rfl
@[simp] theorem neg_y (a : Vector3f) : (-a).y = -a.y := rfl
@[simp] theorem neg_z (a : Vector3f) : (-a).z = -a.z := rfl
@[simp] theorem smul_x (c : Float) (a : Vector3f) : (c * a).x = c * a.x := rfl
@[simp] theorem smul_y (c : Float) (a : Vector3f) : (c * a).y = c * a.y := rfl
@[simp] theorem smul_z (c : Float) (a : Vector3f) : (c * a).z = c * a.z := rfl
@[simp] theorem div_x (a : Vector3f) (c : Float) : (a / c).x = a.x / c := rfl
@[simp] theorem div_y (a : Vector3f) (c : Float) : (a / c).y = a.y / c := rfl
@[simp] theorem div_z (a : Vector3f) (c : Float) : (a / c).z = a.z / c := rfl
@[simp] theorem get_zero (v : Vector3f) : v.get 0 = v.x := rfl
@[simp] theorem get_one (v : Vector3f) : v.get 1 = v.y := rfl
@[simp] theorem get_two (v : Vector3f) : v.get 2 = v.z := rfl

end Vector3f

@[simp] theorem nextAxis_zero : nextAxis 0 = 1 := rfl
@[simp] theorem nextAxis_one : nextAxis 1 = 2 := rfl
@[simp] theorem nextAxis_two : nextAxis 2 = 0 := rfl

/-- The chosen axis is one of the three coordinate axes. -/
theorem chooseKz_cases (d : Vector3f) :
    chooseKz d = 0 ∨ chooseKz d = 1 ∨ chooseKz d = 2 := by
  unfold chooseKz
  dsimp only
  split_ifs <;> simp

/-- The component on the chosen axis has the largest magnitude. -/
theorem chooseKz_max (d : Vector3f) :
    |d.x| ≤ |d.get (chooseKz d)| ∧ |d.y| ≤ |d.get (chooseKz d)| ∧
      |d.z| ≤ |d.get (chooseKz d)| := by
  unfold chooseKz Abs
  dsimp only
  split_ifs with h1 h2 h3 <;> simp only [Vector3f.get_zero, Vector3f.get_one, Vector3f.get_two]
  · exact ⟨le_refl _, le_of_lt h1, le_of_lt h2⟩
  · exact ⟨not_lt.mp h2, le_trans (le_of_lt h1) (not_lt.mp h2), le_refl _⟩
  · exact ⟨not_lt.mp h1, le_refl _, le_of_lt h3⟩
  · exact ⟨le_trans (not_lt.mp h1) (not_lt.mp h3), not_lt.mp h3, le_refl _⟩

/-- A ray of non-zero direction has a non-zero component on the chosen axis. -/
theorem chooseKz_ne_zero (d : Vector3f) (hd : d ≠ 0) : d.get (chooseKz d) ≠ 0 := by
  intro h
  obtain ⟨hx, hy, hz⟩ := chooseKz_max d
  rw [h, abs_zero] at hx hy hz
  apply hd
  ext
  · exact abs_nonpos_iff.mp hx
  · exact abs_nonpos_iff.mp hy
  · exact abs_nonpos_iff.mp hz

/-- A cyclic permutation of the axes keeps the scalar triple product. -/
theorem triple_Permute (a b c : Vector3f) (kz : Nat) (hk : kz = 0 ∨ kz = 1 ∨ kz = 2) :
    triple (Permute a (nextAxis kz) (nextAxis (nextAxis kz)) kz)
        (Permute b (nextAxis kz) (nextAxis (nextAxis kz)) kz)
        (Permute c (nextAxis kz) (nextAxis (nextAxis kz)) kz) = triple a b c := by
  rcases hk with h | h | h <;> subst h <;> simp [triple, Dot, Cross, Permute] <;> ring

/-- An edge function of two sheared vertices, scaled by `d.z`, is the triple
product of the direction with the two unsheared vertices. -/
theorem shear_edge (d a b : Vector3f) (hd : d.z ≠ 0) :
    ((shear d a).x * (shear d b).y - (shear d a).y * (shear d b).x) * d.z = triple d a b := by
  simp only [shear, triple, Dot, Cross]
  field_simp
  ring

/-! ## The edge functions as triple products -/

/-- Cramer's rule for three vectors, read on one axis. -/
theorem cramer_get (d a b c : Vector3f) (k : Nat) :
    triple d b c * a.get k + triple d c a * b.get k + triple d a b * c.get k
      = triple a b c * d.get k := by
  unfold Vector3f.get
  split_ifs <;> simp only [triple, Dot, Cross] <;> ring

namespace Triangle

theorem locals_d_z (tri : Triangle) (ray : Ray) : (tri.locals ray).d.z = dz ray := rfl

theorem locals_det (tri : Triangle) (ray : Ray) :
    (tri.locals ray).det = (tri.locals ray).e0 + (tri.locals ray).e1 + (tri.locals ray).e2 := rfl

theorem locals_e0_mul (tri : Triangle) (ray : Ray) (hd : dz ray ≠ 0) :
    (tri.locals ray).e0 * dz ray = triple ray.d (tri.q ray 1) (tri.q ray 2) := by
  have h := shear_edge
    (Permute ray.d (nextAxis (chooseKz ray.d)) (nextAxis (nextAxis (chooseKz ray.d))) (chooseKz ray.d))
    (Permute (tri.q ray 1) (nextAxis (chooseKz ray.d)) (nextAxis (nextAxis (chooseKz ray.d)))
      (chooseKz ray.d))
    (Permute (tri.q ray 2) (nextAxis (chooseKz ray.d)) (nextAxis (nextAxis (chooseKz ray.d)))
      (chooseKz ray.d)) hd
  rw [triple_Permute _ _ _ _ (chooseKz_cases ray.d)] at h
  exact h

theorem locals_e1_mul (tri : Triangle) (ray : Ray) (hd : dz ray ≠ 0) :
    (tri.locals ray).e1 * dz ray = triple ray.d (tri.q ray 2) (tri.q ray 0) := by
  have h := shear_edge
    (Permute ray.d (nextAxis (chooseKz ray.d)) (nextAxis (nextAxis (chooseKz ray.d))) (chooseKz ray.d))
    (Permute (tri.q ray 2) (nextAxis (chooseKz ray.d)) (nextAxis (nextAxis (chooseKz ray.d)))
      (chooseKz ray.d))
    (Permute (tri.q ray 0) (nextAxis (chooseKz ray.d)) (nextAxis (nextAxis (chooseKz ray.d)))
      (chooseKz ray.d)) hd
  rw [triple_Permute _ _ _ _ (chooseKz_cases ray.d)] at h
  exact h

theorem locals_e2_mul (tri : Triangle) (ray : Ray) (hd : dz ray ≠ 0) :
    (tri.locals ray).e2 * dz ray = triple ray.d (tri.q ray 0) (tri.q ray 1) := by
  have h := shear_edge
    (Permute ray.d (nextAxis (chooseKz ray.d)) (nextAxis (nextAxis (chooseKz ray.d))) (chooseKz ray.d))
    (Permute (tri.q ray 0) (nextAxis (chooseKz ray.d)) (nextAxis (nextAxis (chooseKz ray.d)))
      (chooseKz ray.d))
    (Permute (tri.q ray 1) (nextAxis (chooseKz ray.d)) (nextAxis (nextAxis (chooseKz ray.d)))
      (chooseKz ray.d)) hd
  rw [triple_Permute _ _ _ _ (chooseKz_cases ray.d)] at h
  exact h

/-- The determinant, scaled by `d.z`, is the direction dotted with the
(unnormalised) plane normal `(p1 - p0) × (p2 - p0)`. -/
theorem locals_det_mul (tri : Triangle) (ray : Ray) (hd : dz ray ≠ 0) :
    (tri.locals ray).det * dz ray = Dot ray.d (Cross (tri.P 1 - tri.P 0) (tri.P 2 - tri.P 0)) := by
  rw [locals_det, add_mul, add_mul, locals_e0_mul tri ray hd, locals_e1_mul tri ray hd,
    locals_e2_mul tri ray hd]
  simp only [triple, Dot, Cross, q, Vector3f.sub_x, Vector3f.sub_y, Vector3f.sub_z]
  ring

theorem locals_tScaled (tri : Triangle) (ray : Ray) :
    (tri.locals ray).tScaled =
      (tri.locals ray).e0 * ((tri.q ray 0).get (chooseKz ray.d) * (1 / dz ray)) +
      (tri.locals ray).e1 * ((tri.q ray 1).get (chooseKz ray.d) * (1 / dz ray)) +
      (tri.locals ray).e2 * ((tri.q ray 2).get (chooseKz ray.d) * (1 / dz ray)) := rfl

/-- The scaled distance, scaled by `d.z`, is the triple product of the three
translated vertices. -/
theorem locals_tScaled_mul (tri : Triangle) (ray : Ray) (hd : dz ray ≠ 0) :
    (tri.locals ray).tScaled * dz ray = triple (tri.q ray 0) (tri.q ray 1) (tri.q ray 2) := by
  have hc := cramer_get ray.d (tri.q ray 0) (tri.q ray 1) (tri.q ray 2) (chooseKz ray.d)
  rw [← locals_e0_mul tri ray hd, ← locals_e1_mul tri ray hd, ← locals_e2_mul tri ray hd] at hc
  have hc2 : triple (tri.q ray 0) (tri.q ray 1) (tri.q ray 2) * dz ray
      = triple (tri.q ray 0) (tri.q ray 1) (tri.q ray 2) * ray.d.get (chooseKz ray.d) := rfl
  apply mul_right_cancel₀ hd
  rw [hc2, ← hc, locals_tScaled]
  field_simp
  ring

end Triangle

/-! ## The hit decision -/

namespace Triangle

/-- The hit decision, read off the four guards. -/
theorem Intersect_hit_iff (env : Externals) (tri : Triangle) (ray : Ray)
    (isect : SurfaceIntersection) :
    (tri.Intersect env ray isect).1 = true ↔
      ¬ (((tri.locals ray).e0 < 0 ∨ (tri.locals ray).e1 < 0 ∨ (tri.locals ray).e2 < 0) ∧
          ((tri.locals ray).e0 > 0 ∨ (tri.locals ray).e1 > 0 ∨ (tri.locals ray).e2 > 0)) ∧
      (tri.locals ray).det ≠ 0 ∧
      ¬ ((tri.locals ray).det < 0 ∧ ((tri.locals ray).tScaled ≥ 0 ∨
          (tri.locals ray).tScaled < ray.tmax * (tri.locals ray).det)) ∧
      ¬ ((tri.locals ray).det > 0 ∧ ((tri.locals ray).tScaled ≤ 0 ∨
          (tri.locals ray).tScaled > ray.tmax * (tri.locals ray).det)) := by
  unfold Intersect
  dsimp only
  split_ifs with h1 h2 h3 h4
  · simp [h1]
  · simp [h2]
  · simp [h3]
  · simp [h4]
  · exact ⟨fun _ => ⟨h1, h2, h3, h4⟩, fun _ => rfl⟩

theorem Intersect_of_hit (env : Externals) (tri : Triangle) (ray : Ray)
    (isect : SurfaceIntersection) (h : (tri.Intersect env ray isect).1 = true) :
    tri.Intersect env ray isect = (true, tri.hitRecord env ray) := by
  unfold Intersect at h ⊢
  dsimp only at h ⊢
  split_ifs at h ⊢
  rfl

theorem Intersect_of_miss (env : Externals) (tri : Triangle) (ray : Ray)
    (isect : SurfaceIntersection) (h : (tri.Intersect env ray isect).1 = false) :
    tri.Intersect env ray isect = (false, isect) := by
  unfold Intersect at h ⊢
  dsimp only at h ⊢
  split_ifs at h ⊢ <;> simp_all

/-- The decision does not read the record passed in. -/
theorem Intersect_fst_indep (env : Externals) (tri : Triangle) (ray : Ray)
    (i j : SurfaceIntersection) :
    (tri.Intersect env ray i).1 = (tri.Intersect env ray j).1 := by
  unfold Intersect
  dsimp only
  split_ifs
  all_goals rfl

/-- On a hit the three edge functions have the sign of the determinant, and
the scaled distance lies between zero and `tmax * det`. -/
theorem hit_signs (env : Externals) (tri : Triangle) (ray : Ray)
    (isect : SurfaceIntersection) (h : (tri.Intersect env ray isect).1 = true) :
    ((0 < (tri.locals ray).det ∧ 0 ≤ (tri.locals ray).e0 ∧ 0 ≤ (tri.locals ray).e1 ∧
        0 ≤ (tri.locals ray).e2 ∧ 0 < (tri.locals ray).tScaled ∧
        (tri.locals ray).tScaled ≤ ray.tmax * (tri.locals ray).det) ∨
     ((tri.locals ray).det < 0 ∧ (tri.locals ray).e0 ≤ 0 ∧ (tri.locals ray).e1 ≤ 0 ∧
        (tri.locals ray).e2 ≤ 0 ∧ (tri.locals ray).tScaled < 0 ∧
        ray.tmax * (tri.locals ray).det ≤ (tri.locals ray).tScaled)) := by
  obtain ⟨h1, h2, h3, h4⟩ := (Intersect_hit_iff env tri ray isect).mp h
  have hdet := locals_det tri ray
  rcases lt_or_gt_of_ne h2 with hneg | hpos
  · right
    have h3' : ¬ ((tri.locals ray).tScaled ≥ 0 ∨
        (tri.locals ray).tScaled < ray.tmax * (tri.locals ray).det) := fun hc => h3 ⟨hneg, hc⟩
    push_neg at h3' h1
    have hor : (tri.locals ray).e0 < 0 ∨ (tri.locals ray).e1 < 0 ∨ (tri.locals ray).e2 < 0 := by
      by_contra hc
      push_neg at hc
      linarith [hc.1, hc.2.1, hc.2.2]
    obtain ⟨a, b, c⟩ := h1 hor
    exact ⟨hneg, a, b, c, h3'.1, h3'.2⟩
  · left
    have h4' : ¬ ((tri.locals ray).tScaled ≤ 0 ∨
        (tri.locals ray).tScaled > ray.tmax * (tri.locals ray).det) := fun hc => h4 ⟨hpos, hc⟩
    push_neg at h4' h1
    have hall : 0 ≤ (tri.locals ray).e0 ∧ 0 ≤ (tri.locals ray).e1 ∧ 0 ≤ (tri.locals ray).e2 := by
      by_contra hc
      have hor : (tri.locals ray).e0 < 0 ∨ (tri.locals ray).e1 < 0 ∨ (tri.locals ray).e2 < 0 := by
        by_contra hc2
        push_neg at hc2
        exact hc hc2
      obtain ⟨a, b, c⟩ := h1 hor
      linarith
    exact ⟨hpos, hall.1, hall.2.1, hall.2.2, h4'.1, h4'.2⟩

end Triangle

/-! ## Distance, barycentrics and degenerate triangles (C2 to C5) -/

namespace Vector3f
@[simp] theorem mk_add_mk (a b c d e f : Float) :
    (⟨a, b, c⟩ + ⟨d, e, f⟩ : Vector3f) = ⟨a + d, b + e, c + f⟩ := rfl
@[simp] theorem mk_sub_mk (a b c d e f : Float) :
    (⟨a, b, c⟩ - ⟨d, e, f⟩ : Vector3f) = ⟨a - d, b - e, c - f⟩ := rfl
@[simp] theorem neg_mk (a b c : Float) : (-⟨a, b, c⟩ : Vector3f) = ⟨-a, -b, -c⟩ := rfl
@[simp] theorem smul_mk (k a b c : Float) : (k * (⟨a, b, c⟩ : Vector3f)) = ⟨k * a, k * b, k * c⟩ := rfl
@[simp] theorem mk_div (a b c k : Float) : ((⟨a, b, c⟩ : Vector3f) / k) = ⟨a / k, b / k, c / k⟩ := rfl
theorem zero_def : (0 : Vector3f) = ⟨0, 0, 0⟩ := rfl
end Vector3f

namespace Triangle

theorem locals_t (tri : Triangle) (ray : Ray) :
    (tri.locals ray).t = (tri.locals ray).tScaled / (tri.locals ray).det := by
  show (tri.locals ray).tScaled * (1 / (tri.locals ray).det) = _
  rw [mul_one_div]

theorem locals_b0 (tri : Triangle) (ray : Ray) :
    (tri.locals ray).b0 = (tri.locals ray).e0 / (tri.locals ray).det := by
  show (tri.locals ray).e0 * (1 / (tri.locals ray).det) = _
  rw [mul_one_div]

theorem locals_b1 (tri : Triangle) (ray : Ray) :
    (tri.locals ray).b1 = (tri.locals ray).e1 / (tri.locals ray).det := by
  show (tri.locals ray).e1 * (1 / (tri.locals ray).det) = _
  rw [mul_one_div]

theorem locals_b2 (tri : Triangle) (ray : Ray) :
    (tri.locals ray).b2 = (tri.locals ray).e2 / (tri.locals ray).det := by
  show (tri.locals ray).e2 * (1 / (tri.locals ray).det) = _
  rw [mul_one_div]

/-- A direction that is not parallel to the triangle's plane is not zero on
the projection axis. -/
theorem dz_ne_zero_of_dot (tri : Triangle) (ray : Ray) (h : Dot ray.d tri.crossN ≠ 0) :
    dz ray ≠ 0 := by
  apply chooseKz_ne_zero
  intro h0
  apply h
  rw [h0]
  simp [Dot]

/-- Where the ray's line meets the plane of the triangle, the parameter is the
routine's `tScaled / det`, stated without the division. -/
theorem plane_crossing (tri : Triangle) (ray : Ray) (s : Float) (hd : dz ray ≠ 0)
    (hs : Dot (ray.o + s * ray.d - tri.P 0) tri.crossN = 0) :
    s * (tri.locals ray).det = (tri.locals ray).tScaled := by
  apply mul_right_cancel₀ hd
  rw [mul_assoc, locals_det_mul tri ray hd, locals_tScaled_mul tri ray hd]
  simp only [Dot, Cross, triple, q, crossN, Vector3f.sub_x, Vector3f.sub_y, Vector3f.sub_z,
    Vector3f.add_x, Vector3f.add_y, Vector3f.add_z, Vector3f.smul_x, Vector3f.smul_y,
    Vector3f.smul_z] at hs ⊢
  linear_combination hs

/-- On a hit the computed distance lies in `(0, tmax]`. -/
theorem hit_t_range (env : Externals) (tri : Triangle) (ray : Ray)
    (isect : SurfaceIntersection) (h : (tri.Intersect env ray isect).1 = true) :
    0 < (tri.locals ray).t ∧ (tri.locals ray).t ≤ ray.tmax := by
  rw [locals_t]
  rcases hit_signs env tri ray isect h with ⟨hd, _, _, _, h1, h2⟩ | ⟨hd, _, _, _, h1, h2⟩
  · exact ⟨div_pos h1 hd, (div_le_iff₀ hd).mpr h2⟩
  · exact ⟨div_pos_of_neg_of_neg h1 hd, (div_le_iff_of_neg hd).mpr h2⟩

end Triangle

theorem triS1_P0 : triS1.P 0 = ⟨0, 0, 0⟩ := rfl
theorem triS1_P1 : triS1.P 1 = ⟨1, 0, 0⟩ := rfl
theorem triS1_P2 : triS1.P 2 = ⟨0, 1, 0⟩ := rfl

/-- C2: whenever `Triangle::Intersect` returns true, the parametric distance
`t = tScaled / det` satisfies `0 < t ≤ ray.tmax`, whatever the sign of `det`;
and a ray whose line meets the plane of the triangle at a parameter `s ≤ 0`
or `s > tmax` is a miss. -/
theorem Triangle.Intersect_distance_in_range (env : Externals) (tri : Triangle) (ray : Ray)
    (isect : SurfaceIntersection) :
    ((tri.Intersect env ray isect).1 = true →
      (tri.locals ray).t = (tri.locals ray).tScaled / (tri.locals ray).det ∧
      (tri.locals ray).det ≠ 0 ∧
      0 < (tri.locals ray).t ∧ (tri.locals ray).t ≤ ray.tmax) ∧
    (∀ s : Float, Dot ray.d tri.crossN ≠ 0 →
      Dot (ray.o + s * ray.d - tri.P 0) tri.crossN = 0 →
      (s ≤ 0 ∨ ray.tmax < s) → (tri.Intersect env ray isect).1 = false) := by
  constructor
  · intro h
    exact ⟨Triangle.locals_t tri ray, ((Triangle.Intersect_hit_iff env tri ray isect).mp h).2.1,
      Triangle.hit_t_range env tri ray isect h⟩
  · intro s hN hs hrange
    by_contra hc
    have hit : (tri.Intersect env ray isect).1 = true := by simpa using hc
    have hdet := ((Triangle.Intersect_hit_iff env tri ray isect).mp hit).2.1
    have hst := Triangle.plane_crossing tri ray s (Triangle.dz_ne_zero_of_dot tri ray hN) hs
    have ht : (tri.locals ray).t = s := by
      rw [Triangle.locals_t, ← hst, mul_div_assoc, div_self hdet, mul_one]
    have hr := Triangle.hit_t_range env tri ray isect hit
    rw [ht] at hr
    rcases hrange with h1 | h1
    · exact absurd hr.1 (not_lt.mpr h1)
    · exact absurd hr.2 (not_le.mpr h1)

/-- C2, scenarios S1, S4 and S5: the ray of S1 hits at `t = 1`; the ray of S4
meets the plane at `s = -1` and the ray of S5 at `s = 1 > tmax = 1/2`, and both
miss. -/
theorem Triangle.Intersect_distance_in_range_witness :
    ((triS1.Intersect sampleEnv rayS1 isectInit).1 = true ∧
      (triS1.locals rayS1).t = 1 ∧
      0 < (triS1.locals rayS1).t ∧ (triS1.locals rayS1).t ≤ rayS1.tmax) ∧
    (triS1.Intersect sampleEnv rayS4 isectInit).1 = false ∧
    (triS1.Intersect sampleEnv rayS5 isectInit).1 = false := by
  have hit : (triS1.Intersect sampleEnv rayS1 isectInit).1 = true := by
    simp [Triangle.Intersect, Triangle.locals, chooseKz, Abs, Permute, shear, triS1_P0,
      triS1_P1, triS1_P2, rayS1]
    norm_num
  have ht : (triS1.locals rayS1).t = 1 := by
    simp [Triangle.locals, chooseKz, Abs, Permute, shear, triS1_P0, triS1_P1, triS1_P2, rayS1]
    norm_num
  refine ⟨⟨hit, ht,
    ((Triangle.Intersect_distance_in_range sampleEnv triS1 rayS1 isectInit).1 hit).2.2⟩, ?_, ?_⟩
  · refine (Triangle.Intersect_distance_in_range sampleEnv triS1 rayS4 isectInit).2 (-1) ?_ ?_
      (Or.inl (by norm_num))
    · simp [Dot, Cross, Triangle.crossN, triS1_P0, triS1_P1, triS1_P2, rayS4]
    · simp [Dot, Cross, Triangle.crossN, triS1_P0, triS1_P1, triS1_P2, rayS4]
  · refine (Triangle.Intersect_distance_in_range sampleEnv triS1 rayS5 isectInit).2 1 ?_ ?_
      (Or.inr (by norm_num [rayS5]))
    · simp [Dot, Cross, Triangle.crossN, triS1_P0, triS1_P1, triS1_P2, rayS5]
    · simp [Dot, Cross, Triangle.crossN, triS1_P0, triS1_P1, triS1_P2, rayS5]

namespace Triangle

/-- For three collinear vertices the determinant vanishes, whatever the ray. -/
theorem locals_det_degenerate (tri : Triangle) (ray : Ray) (h : tri.crossN = 0) :
    (tri.locals ray).det = 0 := by
  have hx : tri.crossN.x = 0 := by rw [h]; rfl
  have hy : tri.crossN.y = 0 := by rw [h]; rfl
  have hz : tri.crossN.z = 0 := by rw [h]; rfl
  simp only [crossN, Cross, Vector3f.sub_x, Vector3f.sub_y, Vector3f.sub_z] at hx hy hz
  rcases chooseKz_cases ray.d with k | k | k
  · simp only [locals, k, nextAxis_zero, nextAxis_one, Permute, shear, Vector3f.get_zero,
      Vector3f.get_one, Vector3f.get_two, Vector3f.sub_x, Vector3f.sub_y, Vector3f.sub_z]
    linear_combination hx - (-ray.d.y / ray.d.x) * hy - (-ray.d.z / ray.d.x) * hz
  · simp only [locals, k, nextAxis_two, nextAxis_one, Permute, shear, Vector3f.get_zero,
      Vector3f.get_one, Vector3f.get_two, Vector3f.sub_x, Vector3f.sub_y, Vector3f.sub_z]
    linear_combination hy - (-ray.d.z / ray.d.y) * hz - (-ray.d.x / ray.d.y) * hx
  · simp only [locals, k, nextAxis_two, nextAxis_zero, Permute, shear, Vector3f.get_zero,
      Vector3f.get_one, Vector3f.get_two, Vector3f.sub_x, Vector3f.sub_y, Vector3f.sub_z]
    linear_combination hz - (-ray.d.x / ray.d.z) * hx - (-ray.d.y / ray.d.z) * hy

/-- On a hit the barycentric coordinates add up to one. -/
theorem hit_b_sum (env : Externals) (tri : Triangle) (ray : Ray)
    (isect : SurfaceIntersection) (h : (tri.Intersect env ray isect).1 = true) :
    (tri.locals ray).b0 + (tri.locals ray).b1 + (tri.locals ray).b2 = 1 := by
  have hdet := ((Intersect_hit_iff env tri ray isect).mp h).2.1
  rw [locals_b0, locals_b1, locals_b2, ← add_div, ← add_div, ← locals_det, div_self hdet]

/-- On a hit the barycentric coordinates are non-negative. -/
theorem hit_b_nonneg (env : Externals) (tri : Triangle) (ray : Ray)
    (isect : SurfaceIntersection) (h : (tri.Intersect env ray isect).1 = true) :
    0 ≤ (tri.locals ray).b0 ∧ 0 ≤ (tri.locals ray).b1 ∧ 0 ≤ (tri.locals ray).b2 := by
  rw [locals_b0, locals_b1, locals_b2]
  rcases hit_signs env tri ray isect h with ⟨hd, a, b, c, _, _⟩ | ⟨hd, a, b, c, _, _⟩
  · exact ⟨div_nonneg a hd.le, div_nonneg b hd.le, div_nonneg c hd.le⟩
  · exact ⟨div_nonneg_of_nonpos a hd.le, div_nonneg_of_nonpos b hd.le,
      div_nonneg_of_nonpos c hd.le⟩

/-- On a hit the record holds the point `b0 * p0 + b1 * p1 + b2 * p2`. -/
theorem hit_point (env : Externals) (tri : Triangle) (ray : Ray)
    (isect : SurfaceIntersection) (h : (tri.Intersect env ray isect).1 = true) :
    (tri.Intersect env ray isect).2.p =
      (tri.locals ray).b0 * tri.P 0 + (tri.locals ray).b1 * tri.P 1 +
        (tri.locals ray).b2 * tri.P 2 := by
  rw [Intersect_of_hit env tri ray isect h]
  rfl

end Triangle

/-- C3: whenever `Triangle::Intersect` returns true, the barycentrics
`b_i = e_i / det` add up to one, and the recorded hit point is
`b0 * p0 + b1 * p1 + b2 * p2` over the world-space vertices. -/
theorem Triangle.Intersect_barycentric_law (env : Externals) (tri : Triangle) (ray : Ray)
    (isect : SurfaceIntersection) (h : (tri.Intersect env ray isect).1 = true) :
    (tri.locals ray).b0 = (tri.locals ray).e0 / (tri.locals ray).det ∧
    (tri.locals ray).b1 = (tri.locals ray).e1 / (tri.locals ray).det ∧
    (tri.locals ray).b2 = (tri.locals ray).e2 / (tri.locals ray).det ∧
    (tri.locals ray).b0 + (tri.locals ray).b1 + (tri.locals ray).b2 = 1 ∧
    (tri.Intersect env ray isect).2.p =
      (tri.locals ray).b0 * tri.P 0 + (tri.locals ray).b1 * tri.P 1 +
        (tri.locals ray).b2 * tri.P 2 :=
  ⟨Triangle.locals_b0 tri ray, Triangle.locals_b1 tri ray, Triangle.locals_b2 tri ray,
    Triangle.hit_b_sum env tri ray isect h, Triangle.hit_point env tri ray isect h⟩

/-- C3, scenario S1: a hit with barycentrics `(1/2, 1/4, 1/4)` and hit point
`(1/4, 1/4, 0)`. -/
theorem Triangle.Intersect_barycentric_law_witness :
    (triS1.Intersect sampleEnv rayS1 isectInit).1 = true ∧
    (triS1.locals rayS1).b0 = 1 / 2 ∧ (triS1.locals rayS1).b1 = 1 / 4 ∧
    (triS1.locals rayS1).b2 = 1 / 4 ∧
    (triS1.locals rayS1).b0 + (triS1.locals rayS1).b1 + (triS1.locals rayS1).b2 = 1 ∧
    (triS1.Intersect sampleEnv rayS1 isectInit).2.p = ⟨1 / 4, 1 / 4, 0⟩ := by
  have hit : (triS1.Intersect sampleEnv rayS1 isectInit).1 = true := by
    simp [Triangle.Intersect, Triangle.locals, chooseKz, Abs, Permute, shear, triS1_P0,
      triS1_P1, triS1_P2, rayS1]
    norm_num
  have h0 : (triS1.locals rayS1).b0 = 1 / 2 := by
    simp [Triangle.locals, chooseKz, Abs, Permute, shear, triS1_P0, triS1_P1, triS1_P2, rayS1]
    norm_num
  have h1 : (triS1.locals rayS1).b1 = 1 / 4 := by
    simp [Triangle.locals, chooseKz, Abs, Permute, shear, triS1_P0, triS1_P1, triS1_P2, rayS1]
    norm_num
  have h2 : (triS1.locals rayS1).b2 = 1 / 4 := by
    simp [Triangle.locals, chooseKz, Abs, Permute, shear, triS1_P0, triS1_P1, triS1_P2, rayS1]
    norm_num
  have law := Triangle.Intersect_barycentric_law sampleEnv triS1 rayS1 isectInit hit
  refine ⟨hit, h0, h1, h2, law.2.2.2.1, ?_⟩
  rw [law.2.2.2.2, h0, h1, h2, triS1_P0, triS1_P1, triS1_P2]
  simp

/-- C4: whenever `Triangle::Intersect` returns true, every barycentric
coordinate is non-negative, so that the recorded hit point is a convex
combination of the three vertices; and a ray whose edge functions have mixed
strict signs is a miss. -/
theorem Triangle.Intersect_barycentrics_nonneg (env : Externals) (tri : Triangle) (ray : Ray)
    (isect : SurfaceIntersection) :
    ((tri.Intersect env ray isect).1 = true →
      0 ≤ (tri.locals ray).b0 ∧ 0 ≤ (tri.locals ray).b1 ∧ 0 ≤ (tri.locals ray).b2 ∧
      (tri.locals ray).b0 + (tri.locals ray).b1 + (tri.locals ray).b2 = 1 ∧
      (tri.Intersect env ray isect).2.p =
        (tri.locals ray).b0 * tri.P 0 + (tri.locals ray).b1 * tri.P 1 +
          (tri.locals ray).b2 * tri.P 2) ∧
    ((((tri.locals ray).e0 < 0 ∨ (tri.locals ray).e1 < 0 ∨ (tri.locals ray).e2 < 0) ∧
        ((tri.locals ray).e0 > 0 ∨ (tri.locals ray).e1 > 0 ∨ (tri.locals ray).e2 > 0)) →
      tri.Intersect env ray isect = (false, isect)) := by
  constructor
  · intro h
    obtain ⟨a, b, c⟩ := Triangle.hit_b_nonneg env tri ray isect h
    exact ⟨a, b, c, Triangle.hit_b_sum env tri ray isect h, Triangle.hit_point env tri ray isect h⟩
  · intro hm
    apply Triangle.Intersect_of_miss
    by_contra hc
    have hit : (tri.Intersect env ray isect).1 = true := by simpa using hc
    exact ((Triangle.Intersect_hit_iff env tri ray isect).mp hit).1 hm

/-- C4, scenarios S1 and S2: the hit of S1 has non-negative barycentrics; the
ray of S2 has `e0 = -3 < 0 < 2 = e1` and misses. -/
theorem Triangle.Intersect_barycentrics_nonneg_witness :
    ((triS1.Intersect sampleEnv rayS1 isectInit).1 = true ∧
      0 ≤ (triS1.locals rayS1).b0 ∧ 0 ≤ (triS1.locals rayS1).b1 ∧
      0 ≤ (triS1.locals rayS1).b2) ∧
    ((triS1.locals rayS2).e0 = -3 ∧ (triS1.locals rayS2).e1 = 2 ∧
      triS1.Intersect sampleEnv rayS2 isectInit = (false, isectInit)) := by
  have hit : (triS1.Intersect sampleEnv rayS1 isectInit).1 = true := by
    simp [Triangle.Intersect, Triangle.locals, chooseKz, Abs, Permute, shear, triS1_P0,
      triS1_P1, triS1_P2, rayS1]
    norm_num
  have h0 : (triS1.locals rayS2).e0 = -3 := by
    simp [Triangle.locals, chooseKz, Abs, Permute, shear, triS1_P0, triS1_P1, triS1_P2, rayS2]
    norm_num
  have h1 : (triS1.locals rayS2).e1 = 2 := by
    simp [Triangle.locals, chooseKz, Abs, Permute, shear, triS1_P0, triS1_P1, triS1_P2, rayS2]
    norm_num
  have nn := (Triangle.Intersect_barycentrics_nonneg sampleEnv triS1 rayS1 isectInit).1 hit
  refine ⟨⟨hit, nn.1, nn.2.1, nn.2.2.1⟩, h0, h1, ?_⟩
  apply (Triangle.Intersect_barycentrics_nonneg sampleEnv triS1 rayS2 isectInit).2
  rw [h0, h1]
  exact ⟨Or.inl (by norm_num), Or.inr (Or.inl (by norm_num))⟩

theorem triS6_P0 : triS6.P 0 = ⟨0, 0, 0⟩ := rfl
theorem triS6_P1 : triS6.P 1 = ⟨0, 0, 0⟩ := rfl
theorem triS6_P2 : triS6.P 2 = ⟨1, 0, 0⟩ := rfl

/-- C5: a triangle of zero area, one whose vertices are collinear so that
`Cross(p1 - p0, p2 - p0)` is the zero vector, is missed by every ray: the
determinant is zero, `Triangle::Intersect` returns false (total function, no
error) and leaves the record as it was. -/
theorem Triangle.Intersect_degenerate_miss (env : Externals) (tri : Triangle) (ray : Ray)
    (isect : SurfaceIntersection) (h : tri.crossN = 0) :
    (tri.locals ray).det = 0 ∧ tri.Intersect env ray isect = (false, isect) := by
  have hdet := Triangle.locals_det_degenerate tri ray h
  refine ⟨hdet, ?_⟩
  apply Triangle.Intersect_of_miss
  by_contra hc
  have hit : (tri.Intersect env ray isect).1 = true := by simpa using hc
  exact ((Triangle.Intersect_hit_iff env tri ray isect).mp hit).2.1 hdet

/-- C5, scenario S6: `p0 = p1 = (0,0,0)`, `p2 = (1,0,0)` has a zero cross
product and is missed, here by the ray of S1. -/
theorem Triangle.Intersect_degenerate_miss_witness :
    triS6.crossN = 0 ∧ (triS6.locals rayS1).det = 0 ∧
      triS6.Intersect sampleEnv rayS1 isectInit = (false, isectInit) :=
  have h : triS6.crossN = 0 := by
    simp [Triangle.crossN, Cross, triS6_P0, triS6_P1, triS6_P2, Vector3f.zero_def]
  ⟨h, Triangle.Intersect_degenerate_miss sampleEnv triS6 rayS1 isectInit h⟩


/-! ## Completeness and shared edges (C1) -/

/-- The triple products of a combination `t d = b0 q0 + b1 q1 + b2 q2` with
two of the three vectors. -/
theorem triple_of_combination (d q0 q1 q2 : Vector3f) (t b0 b1 b2 : Float)
    (h : t * d = b0 * q0 + b1 * q1 + b2 * q2) :
    t * triple d q1 q2 = b0 * triple q0 q1 q2 ∧
    t * triple d q2 q0 = b1 * triple q0 q1 q2 ∧
    t * triple d q0 q1 = b2 * triple q0 q1 q2 := by
  have hx := congrArg Vector3f.x h
  have hy := congrArg Vector3f.y h
  have hz := congrArg Vector3f.z h
  simp only [Vector3f.add_x, Vector3f.add_y, Vector3f.add_z, Vector3f.smul_x, Vector3f.smul_y,
    Vector3f.smul_z] at hx hy hz
  simp only [triple, Dot, Cross]
  refine ⟨?_, ?_, ?_⟩
  · linear_combination (q1.y * q2.z - q1.z * q2.y) * hx + (q1.z * q2.x - q1.x * q2.z) * hy
      + (q1.x * q2.y - q1.y * q2.x) * hz
  · linear_combination (q2.y * q0.z - q2.z * q0.y) * hx + (q2.z * q0.x - q2.x * q0.z) * hy
      + (q2.x * q0.y - q2.y * q0.x) * hz
  · linear_combination (q0.y * q1.z - q0.z * q1.y) * hx + (q0.z * q1.x - q0.x * q1.z) * hy
      + (q0.x * q1.y - q0.y * q1.x) * hz

namespace Triangle

/-- When the ray point at parameter `t` is the combination of the vertices
with weights `b0, b1, b2` of sum one and the direction is not parallel to the
plane, the edge functions are `b_i * det` and the scaled distance is `t * det`. -/
theorem locals_of_meeting (tri : Triangle) (ray : Ray) (t b0 b1 b2 : Float) (ht : t ≠ 0)
    (hsum : b0 + b1 + b2 = 1)
    (hp : ray.o + t * ray.d = b0 * tri.P 0 + b1 * tri.P 1 + b2 * tri.P 2)
    (hN : Dot ray.d tri.crossN ≠ 0) :
    (tri.locals ray).det ≠ 0 ∧
    (tri.locals ray).e0 = b0 * (tri.locals ray).det ∧
    (tri.locals ray).e1 = b1 * (tri.locals ray).det ∧
    (tri.locals ray).e2 = b2 * (tri.locals ray).det ∧
    (tri.locals ray).tScaled = t * (tri.locals ray).det := by
  have hd := dz_ne_zero_of_dot tri ray hN
  have hx := congrArg Vector3f.x hp
  have hy := congrArg Vector3f.y hp
  have hz := congrArg Vector3f.z hp
  simp only [Vector3f.add_x, Vector3f.add_y, Vector3f.add_z, Vector3f.smul_x, Vector3f.smul_y,
    Vector3f.smul_z] at hx hy hz
  have hq : t * ray.d = b0 * tri.q ray 0 + b1 * tri.q ray 1 + b2 * tri.q ray 2 := by
    ext
    · simp only [q, Vector3f.add_x, Vector3f.smul_x, Vector3f.sub_x]
      linear_combination hx + ray.o.x * hsum
    · simp only [q, Vector3f.add_y, Vector3f.smul_y, Vector3f.sub_y]
      linear_combination hy + ray.o.y * hsum
    · simp only [q, Vector3f.add_z, Vector3f.smul_z, Vector3f.sub_z]
      linear_combination hz + ray.o.z * hsum
  obtain ⟨t0, t1, t2⟩ := triple_of_combination _ _ _ _ _ _ _ _ hq
  rw [← locals_e0_mul tri ray hd] at t0
  rw [← locals_e1_mul tri ray hd] at t1
  rw [← locals_e2_mul tri ray hd] at t2
  have hdetN := locals_det_mul tri ray hd
  have hdet : (tri.locals ray).det ≠ 0 := by
    intro hc
    rw [hc, zero_mul] at hdetN
    exact hN hdetN.symm
  have htd : t * dz ray ≠ 0 := mul_ne_zero ht hd
  have hV : (tri.locals ray).det * (t * dz ray)
      = triple (tri.q ray 0) (tri.q ray 1) (tri.q ray 2) := by
    rw [locals_det]
    linear_combination t0 + t1 + t2 + triple (tri.q ray 0) (tri.q ray 1) (tri.q ray 2) * hsum
  refine ⟨hdet, ?_, ?_, ?_, ?_⟩
  · apply mul_right_cancel₀ htd
    linear_combination t0 - b0 * hV
  · apply mul_right_cancel₀ htd
    linear_combination t1 - b1 * hV
  · apply mul_right_cancel₀ htd
    linear_combination t2 - b2 * hV
  · apply mul_right_cancel₀ hd
    rw [locals_tScaled_mul tri ray hd]
    linear_combination -hV

/-- Completeness of the test: a ray that meets the closed triangle within
range, with a direction not parallel to its plane, is reported as a hit. -/
theorem Intersect_complete (env : Externals) (tri : Triangle) (ray : Ray)
    (isect : SurfaceIntersection) (t b0 b1 b2 : Float) (ht : 0 < t) (htmax : t ≤ ray.tmax)
    (h0 : 0 ≤ b0) (h1 : 0 ≤ b1) (h2 : 0 ≤ b2) (hsum : b0 + b1 + b2 = 1)
    (hp : ray.o + t * ray.d = b0 * tri.P 0 + b1 * tri.P 1 + b2 * tri.P 2)
    (hN : Dot ray.d tri.crossN ≠ 0) :
    (tri.Intersect env ray isect).1 = true := by
  obtain ⟨hdet, e0, e1, e2, hts⟩ := locals_of_meeting tri ray t b0 b1 b2 ht.ne' hsum hp hN
  rw [Intersect_hit_iff, e0, e1, e2, hts]
  refine ⟨?_, hdet, ?_, ?_⟩
  · rintro ⟨hneg, hpos⟩
    rcases lt_or_gt_of_ne hdet with hd | hd
    · rcases hpos with h | h | h
      · exact absurd h (not_lt.mpr (mul_nonpos_of_nonneg_of_nonpos h0 hd.le))
      · exact absurd h (not_lt.mpr (mul_nonpos_of_nonneg_of_nonpos h1 hd.le))
      · exact absurd h (not_lt.mpr (mul_nonpos_of_nonneg_of_nonpos h2 hd.le))
    · rcases hneg with h | h | h
      · exact absurd h (not_lt.mpr (mul_nonneg h0 hd.le))
      · exact absurd h (not_lt.mpr (mul_nonneg h1 hd.le))
      · exact absurd h (not_lt.mpr (mul_nonneg h2 hd.le))
  · rintro ⟨hd, h | h⟩
    · exact absurd h (not_le.mpr (mul_neg_of_pos_of_neg ht hd))
    · exact absurd h (not_lt.mpr (mul_le_mul_of_nonpos_right htmax hd.le))
  · rintro ⟨hd, h | h⟩
    · exact absurd h (not_le.mpr (mul_pos ht hd))
    · exact absurd h (not_lt.mpr (mul_le_mul_of_nonneg_right htmax hd.le))


/-- A ray that meets, within range, a point of the segment between two
vertices of a triangle, with a direction not parallel to the triangle's plane,
is reported as a hit. -/
theorem Intersect_on_edge (env : Externals) (tri : Triangle) (ray : Ray)
    (isect : SurfaceIntersection) (A B : Point3f) (s t : Float)
    (hA : A = tri.P 0 ∨ A = tri.P 1 ∨ A = tri.P 2)
    (hB : B = tri.P 0 ∨ B = tri.P 1 ∨ B = tri.P 2)
    (hs0 : 0 ≤ s) (hs1 : s ≤ 1) (ht : 0 < t) (htmax : t ≤ ray.tmax)
    (hp : ray.o + t * ray.d = (1 - s) * A + s * B)
    (hN : Dot ray.d tri.crossN ≠ 0) :
    (tri.Intersect env ray isect).1 = true := by
  have hs1' : 0 ≤ 1 - s := by linarith
  rcases hA with rfl | rfl | rfl <;> rcases hB with rfl | rfl | rfl
  · exact Intersect_complete env tri ray isect t 1 0 0 ht htmax (by norm_num) le_rfl le_rfl
      (by ring) (by rw [hp]; ext <;> simp <;> ring) hN
  · exact Intersect_complete env tri ray isect t (1 - s) s 0 ht htmax hs1' hs0 le_rfl
      (by ring) (by rw [hp]; ext <;> simp) hN
  · exact Intersect_complete env tri ray isect t (1 - s) 0 s ht htmax hs1' le_rfl hs0
      (by ring) (by rw [hp]; ext <;> simp) hN
  · exact Intersect_complete env tri ray isect t s (1 - s) 0 ht htmax hs0 hs1' le_rfl
      (by ring) (by rw [hp]; ext <;> simp <;> ring) hN
  · exact Intersect_complete env tri ray isect t 0 1 0 ht htmax le_rfl (by norm_num) le_rfl
      (by ring) (by rw [hp]; ext <;> simp <;> ring) hN
  · exact Intersect_complete env tri ray isect t 0 (1 - s) s ht htmax le_rfl hs1' hs0
      (by ring) (by rw [hp]; ext <;> simp) hN
  · exact Intersect_complete env tri ray isect t s 0 (1 - s) ht htmax hs0 le_rfl hs1'
      (by ring) (by rw [hp]; ext <;> simp <;> ring) hN
  · exact Intersect_complete env tri ray isect t 0 s (1 - s) ht htmax le_rfl hs0 hs1'
      (by ring) (by rw [hp]; ext <;> simp <;> ring) hN
  · exact Intersect_complete env tri ray isect t 0 0 1 ht htmax le_rfl le_rfl (by norm_num)
      (by ring) (by rw [hp]; ext <;> simp <;> ring) hN

end Triangle

theorem triS3_P0 : triS3.P 0 = ⟨1, 0, 0⟩ := rfl
theorem triS3_P1 : triS3.P 1 = ⟨1, 1, 0⟩ := rfl
theorem triS3_P2 : triS3.P 2 = ⟨0, 1, 0⟩ := rfl

/-- C1, as stated, fails: the two triangles of scenario S3 share exactly the
edge from `(1,0,0)` to `(0,1,0)`; the ray from the origin along `(1,1,0)`
crosses that edge at its midpoint at `t = 1/2`, within `tmax = 10`; the ray
lies in the plane of both triangles and both calls return false. -/
theorem watertight_counterexample :
    triS1.P 1 = ⟨1, 0, 0⟩ ∧ triS1.P 2 = ⟨0, 1, 0⟩ ∧ triS3.P 0 = ⟨1, 0, 0⟩ ∧
    triS3.P 2 = ⟨0, 1, 0⟩ ∧ triS1.P 0 ≠ triS3.P 1 ∧
    rayInPlane.o + (1 / 2 : Float) * rayInPlane.d
      = (1 - 1 / 2 : Float) * (⟨1, 0, 0⟩ : Point3f) + (1 / 2 : Float) * (⟨0, 1, 0⟩ : Point3f) ∧
    (0 : Float) < 1 / 2 ∧ (1 / 2 : Float) ≤ rayInPlane.tmax ∧
    ¬ ((triS1.Intersect sampleEnv rayInPlane isectInit).1 = true ∨
        (triS3.Intersect sampleEnv rayInPlane isectInit).1 = true) := by
  refine ⟨rfl, rfl, rfl, rfl, ?_, ?_, by norm_num, by norm_num [rayInPlane], ?_⟩
  · rw [triS1_P0, triS3_P1]
    simp
  · simp [rayInPlane]
    norm_num
  · simp [Triangle.Intersect, Triangle.locals, chooseKz, Abs, Permute, shear, triS1_P0,
      triS1_P1, triS1_P2, triS3_P0, triS3_P1, triS3_P2, rayInPlane]

/-- C1, amended: for two triangles that both have `A` and `B` among their
vertices and a ray that meets the segment from `A` to `B` at a parameter
`0 < t ≤ tmax`, each of the two triangles whose plane the direction is not
parallel to returns true from `Triangle::Intersect`; so at least one call
returns true unless the direction is parallel to both planes. -/
theorem watertight_shared_edge (env : Externals) (tri1 tri2 : Triangle) (ray : Ray)
    (isect1 isect2 : SurfaceIntersection) (A B : Point3f) (s t : Float)
    (hA1 : A = tri1.P 0 ∨ A = tri1.P 1 ∨ A = tri1.P 2)
    (hB1 : B = tri1.P 0 ∨ B = tri1.P 1 ∨ B = tri1.P 2)
    (hA2 : A = tri2.P 0 ∨ A = tri2.P 1 ∨ A = tri2.P 2)
    (hB2 : B = tri2.P 0 ∨ B = tri2.P 1 ∨ B = tri2.P 2)
    (hs0 : 0 ≤ s) (hs1 : s ≤ 1) (ht : 0 < t) (htmax : t ≤ ray.tmax)
    (hp : ray.o + t * ray.d = (1 - s) * A + s * B) :
    (Dot ray.d tri1.crossN ≠ 0 → (tri1.Intersect env ray isect1).1 = true) ∧
    (Dot ray.d tri2.crossN ≠ 0 → (tri2.Intersect env ray isect2).1 = true) ∧
    (Dot ray.d tri1.crossN ≠ 0 ∨ Dot ray.d tri2.crossN ≠ 0 →
      (tri1.Intersect env ray isect1).1 = true ∨ (tri2.Intersect env ray isect2).1 = true) := by
  have a1 := Triangle.Intersect_on_edge env tri1 ray isect1 A B s t hA1 hB1 hs0 hs1 ht htmax hp
  have a2 := Triangle.Intersect_on_edge env tri2 ray isect2 A B s t hA2 hB2 hs0 hs1 ht htmax hp
  exact ⟨a1, a2, fun h => h.elim (fun h => Or.inl (a1 h)) (fun h => Or.inr (a2 h))⟩

/-- C1, scenario S3: the ray from `(1/2, 1/2, 1)` along `-z` meets the
midpoint of the shared edge at `t = 1`, is not parallel to the plane of the
first triangle, and at least one of the two calls returns true. -/
theorem watertight_shared_edge_witness :
    Dot rayS3.d triS1.crossN ≠ 0 ∧
    ((triS1.Intersect sampleEnv rayS3 isectInit).1 = true ∨
      (triS3.Intersect sampleEnv rayS3 isectInit).1 = true) := by
  have hN : Dot rayS3.d triS1.crossN ≠ 0 := by
    simp [Dot, Cross, Triangle.crossN, triS1_P0, triS1_P1, triS1_P2, rayS3]
  refine ⟨hN, (watertight_shared_edge sampleEnv triS1 triS3 rayS3 isectInit isectInit
    ⟨1, 0, 0⟩ ⟨0, 1, 0⟩ (1 / 2) 1 (Or.inr (Or.inl rfl)) (Or.inr (Or.inr rfl)) (Or.inl rfl)
    (Or.inr (Or.inr rfl)) (by norm_num) (by norm_num) (by norm_num) (by norm_num [rayS3])
    ?_).2.2 (Or.inl hN)⟩
  simp [rayS3]
  norm_num

/-! ## The linear aggregate (C6, C7) -/

namespace NaiveAccelerator

theorem intersectLoop_append (ray : Ray) (xs ys : List Shape) (found : Bool)
    (isect : SurfaceIntersection) :
    intersectLoop ray (xs ++ ys) found isect =
      intersectLoop ray ys (intersectLoop ray xs found isect).1
        (intersectLoop ray xs found isect).2 := by
  induction xs generalizing found isect with
  | nil => rfl
  | cons x xs ih =>
    show intersectLoop ray (xs ++ ys) _ _ = _
    rw [ih]
    rfl

/-- The record the loop leaves does not depend on the flag it starts from. -/
theorem intersectLoop_snd (ray : Ray) (xs : List Shape) (found : Bool)
    (isect : SurfaceIntersection) :
    (intersectLoop ray xs found isect).2 = (intersectLoop ray xs false isect).2 := by
  induction xs generalizing found isect with
  | nil => rfl
  | cons x xs ih =>
    simp only [intersectLoop]
    rw [ih, ih (if (x.Intersect ray isect).1 = true then true else false)]

/-- The flag the loop leaves is the flag it starts from or the flag of a run
started from false. -/
theorem intersectLoop_fst (ray : Ray) (xs : List Shape) (found : Bool)
    (isect : SurfaceIntersection) :
    (intersectLoop ray xs found isect).1 = (found || (intersectLoop ray xs false isect).1) := by
  induction xs generalizing found isect with
  | nil => simp [intersectLoop]
  | cons x xs ih =>
    simp only [intersectLoop]
    rw [ih, ih (if (x.Intersect ray isect).1 = true then true else false)]
    cases found <;> cases (x.Intersect ray isect).1 <;> simp

/-- One trip of the loop, for the last child: it is called on the record the
children before it left, whatever the flag, and its result is or-ed in. -/
theorem intersectLoop_concat (ray : Ray) (xs : List Shape) (c : Shape) (found : Bool)
    (isect : SurfaceIntersection) :
    intersectLoop ray (xs ++ [c]) found isect =
      ((intersectLoop ray xs found isect).1 ||
          (c.Intersect ray (intersectLoop ray xs found isect).2).1,
        (c.Intersect ray (intersectLoop ray xs found isect).2).2) := by
  rw [intersectLoop_append]
  simp only [intersectLoop]
  cases (intersectLoop ray xs found isect).1 <;>
    cases (c.Intersect ray (intersectLoop ray xs found isect).2).1 <;> simp

/-- The loop reports a hit exactly when some child, called on the record left
by the children before it, reports one. -/
theorem intersectLoop_true_iff (ray : Ray) (xs : List Shape) (isect : SurfaceIntersection) :
    (intersectLoop ray xs false isect).1 = true ↔
      ∃ pre c post, xs = pre ++ c :: post ∧
        (c.Intersect ray (intersectLoop ray pre false isect).2).1 = true := by
  induction xs using List.reverseRecOn with
  | nil => simp [intersectLoop]
  | append_singleton xs c ih =>
    rw [intersectLoop_concat, Bool.or_eq_true, ih]
    constructor
    · rintro (⟨pre, c', post, rfl, h⟩ | h)
      · exact ⟨pre, c', post ++ [c], by simp, h⟩
      · exact ⟨xs, c, [], rfl, h⟩
    · rintro ⟨pre, c', post, hsplit, h⟩
      rcases List.eq_nil_or_concat post with rfl | ⟨post', z, rfl⟩
      · obtain ⟨rfl, hc⟩ := List.append_inj' hsplit rfl
        obtain rfl : c = c' := by simpa using hc
        exact Or.inr h
      · left
        have : xs ++ [c] = (pre ++ c' :: post') ++ [z] := by simp [hsplit]
        obtain ⟨rfl, _⟩ := List.append_inj' this rfl
        exact ⟨pre, c', post', rfl, h⟩


/-- Over triangles that all miss, the loop changes neither flag nor record. -/
theorem intersectLoop_all_miss (env : Externals) (ray : Ray) (tris : List Triangle)
    (found : Bool) (isect : SurfaceIntersection)
    (h : ∀ x ∈ tris, (x.Intersect env ray isect).1 = false) :
    intersectLoop ray (tris.map (Triangle.toShape env)) found isect = (found, isect) := by
  induction tris with
  | nil => rfl
  | cons x xs ih =>
    have hx := Triangle.Intersect_of_miss env x ray isect (h x (List.mem_cons_self x xs))
    show intersectLoop ray (xs.map (Triangle.toShape env))
      (if (x.Intersect env ray isect).1 = true then true else found)
      (x.Intersect env ray isect).2 = _
    rw [hx]
    exact ih (fun y hy => h y (List.mem_cons_of_mem x hy))

/-- Over triangles, the loop reports a hit exactly when one of them does. -/
theorem intersectLoop_triangles_iff (env : Externals) (ray : Ray) (tris : List Triangle)
    (isect : SurfaceIntersection) :
    (intersectLoop ray (tris.map (Triangle.toShape env)) false isect).1 = true ↔
      ∃ tri ∈ tris, (tri.Intersect env ray isect).1 = true := by
  induction tris generalizing isect with
  | nil => simp [intersectLoop]
  | cons x xs ih =>
    have step : intersectLoop ray ((x :: xs).map (Triangle.toShape env)) false isect =
        intersectLoop ray (xs.map (Triangle.toShape env))
          (if (x.Intersect env ray isect).1 = true then true else false)
          (x.Intersect env ray isect).2 := rfl
    rw [step, intersectLoop_fst, Bool.or_eq_true, ih]
    constructor
    · rintro (h | ⟨tri, hm, h⟩)
      · refine ⟨x, List.mem_cons_self x xs, ?_⟩
        by_contra hc
        simp [hc] at h
      · exact ⟨tri, List.mem_cons_of_mem x hm,
          (Triangle.Intersect_fst_indep env tri ray _ _).trans h⟩
    · rintro ⟨tri, hm, h⟩
      rcases List.mem_cons.mp hm with rfl | hm
      · left
        simp [h]
      · exact Or.inr ⟨tri, hm, (Triangle.Intersect_fst_indep env tri ray _ _).trans h⟩

/-- The record after a list of triangles is the one written by the last of
them that hits. -/
theorem intersectLoop_last_hit (env : Externals) (ray : Ray) (pre post : List Triangle)
    (c : Triangle) (isect : SurfaceIntersection)
    (hc : (c.Intersect env ray isect).1 = true)
    (hpost : ∀ x ∈ post, (x.Intersect env ray isect).1 = false) :
    intersectLoop ray ((pre ++ c :: post).map (Triangle.toShape env)) false isect =
      (true, c.hitRecord env ray) := by
  have hsplit : (pre ++ c :: post).map (Triangle.toShape env) =
      (pre.map (Triangle.toShape env) ++ [Triangle.toShape env c]) ++
        post.map (Triangle.toShape env) := by simp
  rw [hsplit, intersectLoop_append, intersectLoop_concat]
  have hc' : ((Triangle.toShape env c).Intersect ray
      (intersectLoop ray (pre.map (Triangle.toShape env)) false isect).2) =
      (true, c.hitRecord env ray) :=
    Triangle.Intersect_of_hit env c ray _
      ((Triangle.Intersect_fst_indep env c ray _ _).trans hc)
  rw [hc']
  simp only [Bool.or_true]
  exact intersectLoop_all_miss env ray post true _
    (fun x hx => (Triangle.Intersect_fst_indep env x ray _ _).trans (hpost x hx))

end NaiveAccelerator

/-- Among the elements of a list that satisfy a property, if there is one
there is a last one. -/
theorem exists_last_of_exists {α : Type} (p : α → Prop) (l : List α) (h : ∃ x ∈ l, p x) :
    ∃ pre c post, l = pre ++ c :: post ∧ p c ∧ ∀ x ∈ post, ¬ p x := by
  induction l with
  | nil => simp at h
  | cons a l ih =>
    by_cases hl : ∃ x ∈ l, p x
    · obtain ⟨pre, c, post, rfl, hc, hpost⟩ := ih hl
      exact ⟨a :: pre, c, post, rfl, hc, hpost⟩
    · obtain ⟨x, hx, hpx⟩ := h
      rcases List.mem_cons.mp hx with rfl | hx
      · exact ⟨[], x, l, rfl, hpx, fun y hy hpy => hl ⟨y, hy, hpy⟩⟩
      · exact absurd ⟨x, hx, hpx⟩ hl

theorem triNear_P0 : triNear.P 0 = ⟨0, 0, 1 / 2⟩ := rfl
theorem triNear_P1 : triNear.P 1 = ⟨1, 0, 1 / 2⟩ := rfl
theorem triNear_P2 : triNear.P 2 = ⟨0, 1, 1 / 2⟩ := rfl

/-- C6: `NaiveAccelerator::Intersect` returns true exactly when some child,
called on the same ray (and on the record the children before it left),
returns true; every child is called, also after a hit was found: the result
for a collection with one more child is the result for the collection or-ed
with that child's, the record being the one that child leaves; an empty
collection gives false and an untouched record; over triangles, whose decision
does not read the record, the result is true exactly when some triangle's own
`Intersect` on that ray is. -/
theorem NaiveAccelerator.Intersect_iff_child_hit (acc : NaiveAccelerator) (ray : Ray)
    (isect : SurfaceIntersection) :
    ((acc.Intersect ray isect).1 = true ↔
      ∃ pre c post, acc.primitives = pre ++ c :: post ∧
        (c.Intersect ray (NaiveAccelerator.Intersect ⟨pre, acc.bounds⟩ ray isect).2).1 = true) ∧
    (∀ c : Shape, NaiveAccelerator.Intersect ⟨acc.primitives ++ [c], acc.bounds⟩ ray isect =
      ((acc.Intersect ray isect).1 || (c.Intersect ray (acc.Intersect ray isect).2).1,
        (c.Intersect ray (acc.Intersect ray isect).2).2)) ∧
    (acc.primitives = [] → acc.Intersect ray isect = (false, isect)) ∧
    (∀ (env : Externals) (tris : List Triangle),
      acc.primitives = tris.map (Triangle.toShape env) →
      ((acc.Intersect ray isect).1 = true ↔
        ∃ tri ∈ tris, (tri.Intersect env ray isect).1 = true)) := by
  refine ⟨NaiveAccelerator.intersectLoop_true_iff ray acc.primitives isect,
    fun c => NaiveAccelerator.intersectLoop_concat ray acc.primitives c false isect, ?_, ?_⟩
  · intro h
    unfold NaiveAccelerator.Intersect
    rw [h]
    rfl
  · intro env tris h
    unfold NaiveAccelerator.Intersect
    rw [h]
    exact NaiveAccelerator.intersectLoop_triangles_iff env ray tris isect

/-- C6 on concrete collections: over the triangle of S1 alone the ray of S2
finds nothing; over the near triangle and the triangle of S1 the ray of S1
finds a hit; the empty collection gives false. -/
theorem NaiveAccelerator.Intersect_iff_child_hit_witness :
    (NaiveAccelerator.Intersect ⟨[triS1.toShape sampleEnv], ⟨0, 0⟩⟩ rayS2 isectInit).1 = false ∧
    (NaiveAccelerator.Intersect ⟨[triNear.toShape sampleEnv, triS1.toShape sampleEnv], ⟨0, 0⟩⟩
      rayS1 isectInit).1 = true ∧
    NaiveAccelerator.Intersect ⟨[], ⟨0, 0⟩⟩ rayS1 isectInit = (false, isectInit) := by
  have hit : (triS1.Intersect sampleEnv rayS1 isectInit).1 = true := by
    simp [Triangle.Intersect, Triangle.locals, chooseKz, Abs, Permute, shear, triS1_P0,
      triS1_P1, triS1_P2, rayS1]
    norm_num
  have miss : (triS1.Intersect sampleEnv rayS2 isectInit).1 = false := by
    simp [Triangle.Intersect, Triangle.locals, chooseKz, Abs, Permute, shear, triS1_P0,
      triS1_P1, triS1_P2, rayS2]
    norm_num
  refine ⟨?_, ?_, ?_⟩
  · have h := (NaiveAccelerator.Intersect_iff_child_hit ⟨[triS1.toShape sampleEnv], ⟨0, 0⟩⟩
      rayS2 isectInit).2.2.2 sampleEnv [triS1] rfl
    by_contra hc
    obtain ⟨tri, hm, ht⟩ := h.mp (by simpa using hc)
    rw [List.mem_singleton.mp hm, miss] at ht
    exact Bool.false_ne_true ht
  · exact ((NaiveAccelerator.Intersect_iff_child_hit
      ⟨[triNear.toShape sampleEnv, triS1.toShape sampleEnv], ⟨0, 0⟩⟩
      rayS1 isectInit).2.2.2 sampleEnv [triNear, triS1] rfl).mpr
      ⟨triS1, by simp, hit⟩
  · exact (NaiveAccelerator.Intersect_iff_child_hit ⟨[], ⟨0, 0⟩⟩ rayS1 isectInit).2.2.1 rfl

/-- C7: over a collection of triangles, when `NaiveAccelerator::Intersect`
returns true there is a last child, in insertion order, whose `Intersect`
returned true, and the final record is the one that child wrote, whatever the
children before it found; every child is called with the same ray. -/
theorem NaiveAccelerator.Intersect_record_of_last_hit (env : Externals)
    (tris : List Triangle) (bounds : Bounds3f) (ray : Ray) (isect : SurfaceIntersection) :
    ((NaiveAccelerator.Intersect ⟨tris.map (Triangle.toShape env), bounds⟩ ray isect).1 = true →
      ∃ pre c post, tris = pre ++ c :: post ∧ (c.Intersect env ray isect).1 = true ∧
        ∀ x ∈ post, (x.Intersect env ray isect).1 = false) ∧
    (∀ pre c post, tris = pre ++ c :: post → (c.Intersect env ray isect).1 = true →
      (∀ x ∈ post, (x.Intersect env ray isect).1 = false) →
      NaiveAccelerator.Intersect ⟨tris.map (Triangle.toShape env), bounds⟩ ray isect =
          (true, (c.Intersect env ray isect).2) ∧
        (c.Intersect env ray isect).2 = c.hitRecord env ray) := by
  constructor
  · intro h
    have h' := (NaiveAccelerator.intersectLoop_triangles_iff env ray tris isect).mp h
    obtain ⟨pre, c, post, hs, hc, hpost⟩ :=
      exists_last_of_exists (fun tri => (tri.Intersect env ray isect).1 = true) tris h'
    exact ⟨pre, c, post, hs, hc, fun x hx => by simpa using hpost x hx⟩
  · intro pre c post hs hc hpost
    have hrec : (c.Intersect env ray isect).2 = c.hitRecord env ray := by
      rw [Triangle.Intersect_of_hit env c ray isect hc]
    refine ⟨?_, hrec⟩
    rw [hrec, hs]
    exact NaiveAccelerator.intersectLoop_last_hit env ray pre post c isect hc hpost

/-- C7 on a concrete collection: the near triangle (hit at `t = 1/2`) is added
before the triangle of S1 (hit at `t = 1`); the aggregate returns true and the
record holds the farther hit, at `(1/4, 1/4, 0)`. -/
theorem NaiveAccelerator.Intersect_record_of_last_hit_witness :
    (triNear.locals rayS1).t = 1 / 2 ∧ (triS1.locals rayS1).t = 1 ∧
    (triNear.Intersect sampleEnv rayS1 isectInit).1 = true ∧
    (triNear.Intersect sampleEnv rayS1 isectInit).2.p = ⟨1 / 4, 1 / 4, 1 / 2⟩ ∧
    (NaiveAccelerator.Intersect ⟨[triNear, triS1].map (Triangle.toShape sampleEnv), ⟨0, 0⟩⟩
      rayS1 isectInit).1 = true ∧
    (NaiveAccelerator.Intersect ⟨[triNear, triS1].map (Triangle.toShape sampleEnv), ⟨0, 0⟩⟩
      rayS1 isectInit).2.p = ⟨1 / 4, 1 / 4, 0⟩ := by
  have hit : (triS1.Intersect sampleEnv rayS1 isectInit).1 = true := by
    simp [Triangle.Intersect, Triangle.locals, chooseKz, Abs, Permute, shear, triS1_P0,
      triS1_P1, triS1_P2, rayS1]
    norm_num
  have hitN : (triNear.Intersect sampleEnv rayS1 isectInit).1 = true := by
    simp [Triangle.Intersect, Triangle.locals, chooseKz, Abs, Permute, shear, triNear_P0,
      triNear_P1, triNear_P2, rayS1]
    norm_num
  have h := ((NaiveAccelerator.Intersect_record_of_last_hit sampleEnv [triNear, triS1] ⟨0, 0⟩
    rayS1 isectInit).2 [triNear] triS1 [] rfl hit (by simp)).1
  refine ⟨?_, ?_, hitN, ?_, ?_, ?_⟩
  · simp [Triangle.locals, chooseKz, Abs, Permute, shear, triNear_P0, triNear_P1, triNear_P2,
      rayS1]
    norm_num
  · simp [Triangle.locals, chooseKz, Abs, Permute, shear, triS1_P0, triS1_P1, triS1_P2, rayS1]
    norm_num
  · rw [Triangle.hit_point sampleEnv triNear rayS1 isectInit hitN]
    simp [Triangle.locals, chooseKz, Abs, Permute, shear, triNear_P0, triNear_P1, triNear_P2,
      rayS1]
    norm_num
  · rw [h]
  · rw [h, Triangle.hit_point sampleEnv triS1 rayS1 isectInit hit]
    simp [Triangle.locals, chooseKz, Abs, Permute, shear, triS1_P0, triS1_P1, triS1_P2, rayS1]
    norm_num


/-! ## The record written on a hit (C8, C9) -/

theorem LengthSquared_pos_iff (v : Vector3f) : 0 < v.LengthSquared ↔ v ≠ 0 := by
  unfold Vector3f.LengthSquared
  constructor
  · intro h hv
    rw [hv] at h
    simp at h
  · intro hv
    by_contra hc
    have hx := mul_self_nonneg v.x
    have hy := mul_self_nonneg v.y
    have hz := mul_self_nonneg v.z
    apply hv
    ext
    · exact mul_self_eq_zero.mp (by linarith)
    · exact mul_self_eq_zero.mp (by linarith)
    · exact mul_self_eq_zero.mp (by linarith)

/-- A non-zero vector divided by a non-zero scalar is not zero. -/
theorem div_ne_zero_vec (v : Vector3f) (c : Float) (hv : v ≠ 0) (hc : c ≠ 0) : v / c ≠ 0 := by
  intro h
  apply hv
  have hx := congrArg Vector3f.x h
  have hy := congrArg Vector3f.y h
  have hz := congrArg Vector3f.z h
  simp only [Vector3f.div_x, Vector3f.div_y, Vector3f.div_z, Vector3f.zero_x, Vector3f.zero_y,
    Vector3f.zero_z, div_eq_zero_iff] at hx hy hz
  ext
  · exact hx.resolve_right hc
  · exact hy.resolve_right hc
  · exact hz.resolve_right hc

theorem Normalize_zero (env : Externals) : Normalize env 0 = 0 := by
  unfold Normalize
  ext <;> simp

theorem sampleSqrt_one : sampleSqrt 1 = 1 := by
  simp [sampleSqrt]

theorem sampleSqrt_ne_zero (x : Float) (hx : 0 < x) : sampleSqrt x ≠ 0 := by
  unfold sampleSqrt
  have hnum : 0 < x.num := Rat.num_pos.mpr hx
  have h1 : 0 < Nat.sqrt x.num.toNat := Nat.sqrt_pos.mpr (by omega)
  have h2 : 0 < Nat.sqrt x.den := Nat.sqrt_pos.mpr x.den_pos
  have h1' : (0 : ℚ) < (Nat.sqrt x.num.toNat : ℚ) := by exact_mod_cast h1
  have h2' : (0 : ℚ) < (Nat.sqrt x.den : ℚ) := by exact_mod_cast h2
  exact (div_pos h1' h2').ne'

/-- C8: on every hit `Triangle::Intersect` fills the record with
`wo = -ray.d` as it is, `time = ray.time`, a reference to the triangle, the
triangle's face id, and the geometric frame built from the normal
`Normalize(Cross(p0 - p2, p1 - p2))`. -/
theorem Triangle.Intersect_fills_record (env : Externals) (tri : Triangle) (ray : Ray)
    (isect : SurfaceIntersection) (h : (tri.Intersect env ray isect).1 = true) :
    (tri.Intersect env ray isect).2.wo = -ray.d ∧
    (tri.Intersect env ray isect).2.time = ray.time ∧
    (tri.Intersect env ray isect).2.shape = some tri ∧
    (tri.Intersect env ray isect).2.face_index = tri.face_index ∧
    (tri.Intersect env ray isect).2.geo_frame =
      Frame.ofNormal env (Normalize env (Cross (tri.P 0 - tri.P 2) (tri.P 1 - tri.P 2))) ∧
    (tri.Intersect env ray isect).2.geo_frame.n =
      Normalize env (Cross (tri.P 0 - tri.P 2) (tri.P 1 - tri.P 2)) := by
  rw [Triangle.Intersect_of_hit env tri ray isect h]
  exact ⟨rfl, rfl, rfl, rfl, rfl, rfl⟩

/-- C8, scenario S1: a hit with geometric normal `(0,0,1)`, `wo = (0,0,1)` and
face id 0. -/
theorem Triangle.Intersect_fills_record_witness :
    (triS1.Intersect sampleEnv rayS1 isectInit).1 = true ∧
    (triS1.Intersect sampleEnv rayS1 isectInit).2.geo_frame.n = ⟨0, 0, 1⟩ ∧
    (triS1.Intersect sampleEnv rayS1 isectInit).2.wo = ⟨0, 0, 1⟩ ∧
    (triS1.Intersect sampleEnv rayS1 isectInit).2.face_index = 0 ∧
    (triS1.Intersect sampleEnv rayS1 isectInit).2.time = rayS1.time := by
  have hit : (triS1.Intersect sampleEnv rayS1 isectInit).1 = true := by
    simp [Triangle.Intersect, Triangle.locals, chooseKz, Abs, Permute, shear, triS1_P0,
      triS1_P1, triS1_P2, rayS1]
    norm_num
  have rec := Triangle.Intersect_fills_record sampleEnv triS1 rayS1 isectInit hit
  refine ⟨hit, ?_, ?_, ?_, rec.2.1⟩
  · rw [rec.2.2.2.2.2, triS1_P0, triS1_P1, triS1_P2]
    simp [Normalize, Vector3f.Length, Vector3f.LengthSquared, Cross, sampleEnv, sampleSqrt_one]
  · rw [rec.1]
    simp [rayS1]
  · rw [rec.2.2.2.1]
    rfl


namespace Triangle

/-- The shading frame of the record written on a hit, by cases on the vertex
normals. -/
theorem hitRecord_shading_none (env : Externals) (tri : Triangle) (ray : Ray)
    (hn : tri.mesh.n = none) :
    (tri.hitRecord env ray).shading_frame = (tri.hitRecord env ray).geo_frame := by
  simp only [hitRecord, hn]

theorem hitRecord_shading_some (env : Externals) (tri : Triangle) (ray : Ray)
    (n : List Normal3f) (hn : tri.mesh.n = some n) :
    (tri.hitRecord env ray).shading_frame =
      if (Normalize env ((tri.locals ray).b0 * n.getD (tri.vi 0) 0 +
            (tri.locals ray).b1 * n.getD (tri.vi 1) 0 +
            (tri.locals ray).b2 * n.getD (tri.vi 2) 0)).LengthSquared > 0
      then Frame.ofNormal env (Normalize env ((tri.locals ray).b0 * n.getD (tri.vi 0) 0 +
            (tri.locals ray).b1 * n.getD (tri.vi 1) 0 +
            (tri.locals ray).b2 * n.getD (tri.vi 2) 0))
      else (tri.hitRecord env ray).geo_frame := by
  simp only [hitRecord, hn]

end Triangle

/-- C9: on every hit, if the mesh has no vertex normals, or the
interpolation `b0 * n0 + b1 * n1 + b2 * n2` of the vertex normals is the zero
vector, the shading frame of the record is its geometric frame; otherwise,
the square root of a positive number being non-zero, the shading frame is the
frame built from the normalized interpolated normal. -/
theorem Triangle.Intersect_shading_fallback (env : Externals) (tri : Triangle) (ray : Ray)
    (isect : SurfaceIntersection) (hsqrt : ∀ x : Float, 0 < x → env.sqrt x ≠ 0)
    (h : (tri.Intersect env ray isect).1 = true) :
    (tri.mesh.n = none →
      (tri.Intersect env ray isect).2.shading_frame =
        (tri.Intersect env ray isect).2.geo_frame) ∧
    (∀ n : List Normal3f, tri.mesh.n = some n →
      (tri.locals ray).b0 * n.getD (tri.vi 0) 0 + (tri.locals ray).b1 * n.getD (tri.vi 1) 0 +
        (tri.locals ray).b2 * n.getD (tri.vi 2) 0 = 0 →
      (tri.Intersect env ray isect).2.shading_frame =
        (tri.Intersect env ray isect).2.geo_frame) ∧
    (∀ n : List Normal3f, tri.mesh.n = some n →
      (tri.locals ray).b0 * n.getD (tri.vi 0) 0 + (tri.locals ray).b1 * n.getD (tri.vi 1) 0 +
        (tri.locals ray).b2 * n.getD (tri.vi 2) 0 ≠ 0 →
      (tri.Intersect env ray isect).2.shading_frame =
        Frame.ofNormal env (Normalize env
          ((tri.locals ray).b0 * n.getD (tri.vi 0) 0 + (tri.locals ray).b1 * n.getD (tri.vi 1) 0 +
            (tri.locals ray).b2 * n.getD (tri.vi 2) 0))) := by
  rw [Triangle.Intersect_of_hit env tri ray isect h]
  refine ⟨fun hn => Triangle.hitRecord_shading_none env tri ray hn, ?_, ?_⟩
  · intro n hn hz
    show (tri.hitRecord env ray).shading_frame = (tri.hitRecord env ray).geo_frame
    rw [Triangle.hitRecord_shading_some env tri ray n hn, hz, Normalize_zero]
    simp [Vector3f.LengthSquared]
  · intro n hn hnz
    show (tri.hitRecord env ray).shading_frame = _
    rw [Triangle.hitRecord_shading_some env tri ray n hn]
    have hlen : Vector3f.Length env ((tri.locals ray).b0 * n.getD (tri.vi 0) 0 +
        (tri.locals ray).b1 * n.getD (tri.vi 1) 0 +
        (tri.locals ray).b2 * n.getD (tri.vi 2) 0) ≠ 0 :=
      hsqrt _ ((LengthSquared_pos_iff _).mpr hnz)
    have hpos := (LengthSquared_pos_iff _).mpr (div_ne_zero_vec _ _ hnz hlen)
    exact if_pos hpos

theorem triS1Normals_P0 : triS1Normals.P 0 = ⟨0, 0, 0⟩ := rfl
theorem triS1Normals_P1 : triS1Normals.P 1 = ⟨1, 0, 0⟩ := rfl
theorem triS1Normals_P2 : triS1Normals.P 2 = ⟨0, 1, 0⟩ := rfl
theorem triS1Cancel_P0 : triS1Cancel.P 0 = ⟨0, 0, 0⟩ := rfl
theorem triS1Cancel_P1 : triS1Cancel.P 1 = ⟨1, 0, 0⟩ := rfl
theorem triS1Cancel_P2 : triS1Cancel.P 2 = ⟨0, 1, 0⟩ := rfl

/-- C9 on the triangle of S1 under the ray of S1: without vertex normals the
shading frame is the geometric frame; with vertex normals that interpolate to
zero it is the geometric frame; with the vertex normal `(0,0,1)` everywhere it
is the frame of the normalized interpolation, of normal `(0,0,1)`. -/
theorem Triangle.Intersect_shading_fallback_witness :
    (triS1.Intersect sampleEnv rayS1 isectInit).2.shading_frame =
      (triS1.Intersect sampleEnv rayS1 isectInit).2.geo_frame ∧
    (triS1Cancel.Intersect sampleEnv rayS1 isectInit).2.shading_frame =
      (triS1Cancel.Intersect sampleEnv rayS1 isectInit).2.geo_frame ∧
    (triS1Normals.Intersect sampleEnv rayS1 isectInit).2.shading_frame =
      Frame.ofNormal sampleEnv ⟨0, 0, 1⟩ := by
  have hit : (triS1.Intersect sampleEnv rayS1 isectInit).1 = true := by
    simp [Triangle.Intersect, Triangle.locals, chooseKz, Abs, Permute, shear, triS1_P0,
      triS1_P1, triS1_P2, rayS1]
    norm_num
  have hitC : (triS1Cancel.Intersect sampleEnv rayS1 isectInit).1 = true := by
    simp [Triangle.Intersect, Triangle.locals, chooseKz, Abs, Permute, shear, triS1Cancel_P0,
      triS1Cancel_P1, triS1Cancel_P2, rayS1]
    norm_num
  have hitN : (triS1Normals.Intersect sampleEnv rayS1 isectInit).1 = true := by
    simp [Triangle.Intersect, Triangle.locals, chooseKz, Abs, Permute, shear, triS1Normals_P0,
      triS1Normals_P1, triS1Normals_P2, rayS1]
    norm_num
  refine ⟨(Triangle.Intersect_shading_fallback sampleEnv triS1 rayS1 isectInit
      sampleSqrt_ne_zero hit).1 rfl, ?_, ?_⟩
  · refine (Triangle.Intersect_shading_fallback sampleEnv triS1Cancel rayS1 isectInit
      sampleSqrt_ne_zero hitC).2.1 [⟨0, 0, 1⟩, ⟨0, 0, -2⟩, ⟨0, 0, 0⟩] rfl ?_
    have v0 : triS1Cancel.vi 0 = 0 := rfl
    have v1 : triS1Cancel.vi 1 = 1 := rfl
    have v2 : triS1Cancel.vi 2 = 2 := rfl
    simp [v0, v1, v2, Triangle.locals, chooseKz, Abs, Permute, shear, triS1Cancel_P0,
      triS1Cancel_P1, triS1Cancel_P2, rayS1, Vector3f.zero_def]
    norm_num
  · have v0 : triS1Normals.vi 0 = 0 := rfl
    have v1 : triS1Normals.vi 1 = 1 := rfl
    have v2 : triS1Normals.vi 2 = 2 := rfl
    have hi : (triS1Normals.locals rayS1).b0 * ([⟨0, 0, 1⟩, ⟨0, 0, 1⟩, ⟨0, 0, 1⟩] :
          List Normal3f).getD (triS1Normals.vi 0) 0 +
        (triS1Normals.locals rayS1).b1 * ([⟨0, 0, 1⟩, ⟨0, 0, 1⟩, ⟨0, 0, 1⟩] :
          List Normal3f).getD (triS1Normals.vi 1) 0 +
        (triS1Normals.locals rayS1).b2 * ([⟨0, 0, 1⟩, ⟨0, 0, 1⟩, ⟨0, 0, 1⟩] :
          List Normal3f).getD (triS1Normals.vi 2) 0 = ⟨0, 0, 1⟩ := by
      simp [v0, v1, v2, Triangle.locals, chooseKz, Abs, Permute, shear, triS1Normals_P0,
        triS1Normals_P1, triS1Normals_P2, rayS1]
      norm_num
    have hfr := (Triangle.Intersect_shading_fallback sampleEnv triS1Normals rayS1 isectInit
      sampleSqrt_ne_zero hitN).2.2 [⟨0, 0, 1⟩, ⟨0, 0, 1⟩, ⟨0, 0, 1⟩] rfl
      (by rw [hi]; simp [Vector3f.zero_def])
    rw [hfr, hi]
    simp [Normalize, Vector3f.Length, Vector3f.LengthSquared, sampleEnv, sampleSqrt_one]


/-! ## The world bound of a triangle (C10) -/

namespace Triangle

theorem WorldBound_pMin (tri : Triangle) :
    tri.WorldBound.pMin =
      ⟨min (min (tri.P 0).x (tri.P 1).x) (tri.P 2).x, min (min (tri.P 0).y (tri.P 1).y) (tri.P 2).y,
        min (min (tri.P 0).z (tri.P 1).z) (tri.P 2).z⟩ := rfl

theorem WorldBound_pMax (tri : Triangle) :
    tri.WorldBound.pMax =
      ⟨max (max (tri.P 0).x (tri.P 1).x) (tri.P 2).x, max (max (tri.P 0).y (tri.P 1).y) (tri.P 2).y,
        max (max (tri.P 0).z (tri.P 1).z) (tri.P 2).z⟩ := rfl

/-- The world bound contains the three vertices. -/
theorem WorldBound_contains (tri : Triangle) :
    tri.WorldBound.Contains (tri.P 0) ∧ tri.WorldBound.Contains (tri.P 1) ∧
      tri.WorldBound.Contains (tri.P 2) := by
  simp only [Bounds3f.Contains, WorldBound_pMin, WorldBound_pMax]
  simp

/-- Every box that contains the three vertices contains the world bound. -/
theorem WorldBound_least (tri : Triangle) (b : Bounds3f) (h0 : b.Contains (tri.P 0))
    (h1 : b.Contains (tri.P 1)) (h2 : b.Contains (tri.P 2)) :
    b.Contains tri.WorldBound.pMin ∧ b.Contains tri.WorldBound.pMax := by
  simp only [Bounds3f.Contains, WorldBound_pMin, WorldBound_pMax] at *
  have lo0x := h0.1
  have hi0x := h0.2.1
  have lo0y := h0.2.2.1
  have hi0y := h0.2.2.2.1
  have lo0z := h0.2.2.2.2.1
  have hi0z := h0.2.2.2.2.2
  have lo1x := h1.1
  have hi1x := h1.2.1
  have lo1y := h1.2.2.1
  have hi1y := h1.2.2.2.1
  have lo1z := h1.2.2.2.2.1
  have hi1z := h1.2.2.2.2.2
  have lo2x := h2.1
  have hi2x := h2.2.1
  have lo2y := h2.2.2.1
  have hi2y := h2.2.2.2.1
  have lo2z := h2.2.2.2.2.1
  have hi2z := h2.2.2.2.2.2
  constructor
  · exact ⟨le_min (le_min lo0x lo1x) lo2x, le_trans (min_le_right _ _) hi2x,
      le_min (le_min lo0y lo1y) lo2y, le_trans (min_le_right _ _) hi2y,
      le_min (le_min lo0z lo1z) lo2z, le_trans (min_le_right _ _) hi2z⟩
  · exact ⟨le_trans lo2x (le_max_right _ _), max_le (max_le hi0x hi1x) hi2x,
      le_trans lo2y (le_max_right _ _), max_le (max_le hi0y hi1y) hi2y,
      le_trans lo2z (le_max_right _ _), max_le (max_le hi0z hi1z) hi2z⟩

/-- A vertex of one triangle found among the vertices of another lies in the
world bound of the other. -/
theorem WorldBound_contains_of_mem (tri : Triangle) (p : Point3f)
    (h : p ∈ [tri.P 0, tri.P 1, tri.P 2]) : tri.WorldBound.Contains p := by
  obtain ⟨h0, h1, h2⟩ := WorldBound_contains tri
  simp only [List.mem_cons, List.mem_singleton, List.not_mem_nil, or_false] at h
  rcases h with rfl | rfl | rfl
  · exact h0
  · exact h1
  · exact h2

/-- Two triangles with the same vertices, in any order, have the same world
bound. -/
theorem WorldBound_perm (tri tri' : Triangle)
    (h : List.Perm [tri'.P 0, tri'.P 1, tri'.P 2] [tri.P 0, tri.P 1, tri.P 2]) :
    tri'.WorldBound = tri.WorldBound := by
  have m0 : tri'.P 0 ∈ [tri.P 0, tri.P 1, tri.P 2] := h.subset (by simp)
  have m1 : tri'.P 1 ∈ [tri.P 0, tri.P 1, tri.P 2] := h.subset (by simp)
  have m2 : tri'.P 2 ∈ [tri.P 0, tri.P 1, tri.P 2] := h.subset (by simp)
  have n0 : tri.P 0 ∈ [tri'.P 0, tri'.P 1, tri'.P 2] := h.symm.subset (by simp)
  have n1 : tri.P 1 ∈ [tri'.P 0, tri'.P 1, tri'.P 2] := h.symm.subset (by simp)
  have n2 : tri.P 2 ∈ [tri'.P 0, tri'.P 1, tri'.P 2] := h.symm.subset (by simp)
  obtain ⟨⟨a1, _, a3, _, a5, _⟩, ⟨_, a2, _, a4, _, a6⟩⟩ := WorldBound_least tri' tri.WorldBound
    (WorldBound_contains_of_mem tri _ m0) (WorldBound_contains_of_mem tri _ m1)
    (WorldBound_contains_of_mem tri _ m2)
  obtain ⟨⟨b1, _, b3, _, b5, _⟩, ⟨_, b2, _, b4, _, b6⟩⟩ := WorldBound_least tri tri'.WorldBound
    (WorldBound_contains_of_mem tri' _ n0) (WorldBound_contains_of_mem tri' _ n1)
    (WorldBound_contains_of_mem tri' _ n2)
  ext
  · exact le_antisymm b1 a1
  · exact le_antisymm b3 a3
  · exact le_antisymm b5 a5
  · exact le_antisymm a2 b2
  · exact le_antisymm a4 b4
  · exact le_antisymm a6 b6

end Triangle

/-- C10: `Triangle::WorldBound` is the axis-aligned bounding box of the three
vertices: on every axis its minimum is the least and its maximum the greatest
of the three coordinates; it contains `p0`, `p1` and `p2`; every box that
contains the three vertices contains its two corners; and it is the same for
any order of the same three vertices. -/
theorem Triangle.WorldBound_is_bounding_box (tri : Triangle) :
    (tri.WorldBound.pMin.x = min (tri.P 0).x (min (tri.P 1).x (tri.P 2).x) ∧
      tri.WorldBound.pMin.y = min (tri.P 0).y (min (tri.P 1).y (tri.P 2).y) ∧
      tri.WorldBound.pMin.z = min (tri.P 0).z (min (tri.P 1).z (tri.P 2).z) ∧
      tri.WorldBound.pMax.x = max (tri.P 0).x (max (tri.P 1).x (tri.P 2).x) ∧
      tri.WorldBound.pMax.y = max (tri.P 0).y (max (tri.P 1).y (tri.P 2).y) ∧
      tri.WorldBound.pMax.z = max (tri.P 0).z (max (tri.P 1).z (tri.P 2).z)) ∧
    (tri.WorldBound.Contains (tri.P 0) ∧ tri.WorldBound.Contains (tri.P 1) ∧
      tri.WorldBound.Contains (tri.P 2)) ∧
    (∀ b : Bounds3f, b.Contains (tri.P 0) → b.Contains (tri.P 1) → b.Contains (tri.P 2) →
      b.Contains tri.WorldBound.pMin ∧ b.Contains tri.WorldBound.pMax) ∧
    (∀ tri' : Triangle, List.Perm [tri'.P 0, tri'.P 1, tri'.P 2] [tri.P 0, tri.P 1, tri.P 2] →
      tri'.WorldBound = tri.WorldBound) := by
  refine ⟨?_, Triangle.WorldBound_contains tri, Triangle.WorldBound_least tri,
    fun tri' h => Triangle.WorldBound_perm tri tri' h⟩
  simp only [Triangle.WorldBound_pMin, Triangle.WorldBound_pMax]
  exact ⟨min_assoc _ _ _, min_assoc _ _ _, min_assoc _ _ _, max_assoc _ _ _, max_assoc _ _ _,
    max_assoc _ _ _⟩

/-- C10 on concrete triangles: the world bound of the triangle of S1 is the
box from `(0,0,0)` to `(1,1,0)`, and the same vertices listed in another order
give the same box. -/
theorem Triangle.WorldBound_is_bounding_box_witness :
    triS1.WorldBound = ⟨⟨0, 0, 0⟩, ⟨1, 1, 0⟩⟩ ∧
    (oneFace ⟨0, 1, 0⟩ ⟨0, 0, 0⟩ ⟨1, 0, 0⟩ none).WorldBound = triS1.WorldBound := by
  have h := Triangle.WorldBound_is_bounding_box triS1
  refine ⟨?_, ?_⟩
  · ext
    · rw [h.1.1, triS1_P0, triS1_P1, triS1_P2]; simp
    · rw [h.1.2.1, triS1_P0, triS1_P1, triS1_P2]; simp
    · rw [h.1.2.2.1, triS1_P0, triS1_P1, triS1_P2]; simp
    · rw [h.1.2.2.2.1, triS1_P0, triS1_P1, triS1_P2]; simp
    · rw [h.1.2.2.2.2.1, triS1_P0, triS1_P1, triS1_P2]; simp
    · rw [h.1.2.2.2.2.2, triS1_P0, triS1_P1, triS1_P2]; simp
  · apply h.2.2.2
    have e0 : (oneFace ⟨0, 1, 0⟩ ⟨0, 0, 0⟩ ⟨1, 0, 0⟩ none).P 0 = triS1.P 2 := rfl
    have e1 : (oneFace ⟨0, 1, 0⟩ ⟨0, 0, 0⟩ ⟨1, 0, 0⟩ none).P 1 = triS1.P 0 := rfl
    have e2 : (oneFace ⟨0, 1, 0⟩ ⟨0, 0, 0⟩ ⟨1, 0, 0⟩ none).P 2 = triS1.P 1 := rfl
    rw [e0, e1, e2]
    exact @List.perm_append_comm _ [triS1.P 2] [triS1.P 0, triS1.P 1]
/-! ## Build and the cached bound (C11, C12) -/

namespace Bounds3f

theorem Encloses_refl (b : Bounds3f) : b.Encloses b :=
  ⟨le_rfl, le_rfl, le_rfl, le_rfl, le_rfl, le_rfl⟩

theorem Encloses_trans {a b c : Bounds3f} (h1 : a.Encloses b) (h2 : b.Encloses c) :
    a.Encloses c :=
  ⟨h1.1.trans h2.1, h1.2.1.trans h2.2.1, h1.2.2.1.trans h2.2.2.1,
    h2.2.2.2.1.trans h1.2.2.2.1, h2.2.2.2.2.1.trans h1.2.2.2.2.1,
    h2.2.2.2.2.2.trans h1.2.2.2.2.2⟩

theorem Encloses_antisymm {a b : Bounds3f} (h1 : a.Encloses b) (h2 : b.Encloses a) : a = b := by
  ext
  · exact le_antisymm h1.1 h2.1
  · exact le_antisymm h1.2.1 h2.2.1
  · exact le_antisymm h1.2.2.1 h2.2.2.1
  · exact le_antisymm h2.2.2.2.1 h1.2.2.2.1
  · exact le_antisymm h2.2.2.2.2.1 h1.2.2.2.2.1
  · exact le_antisymm h2.2.2.2.2.2 h1.2.2.2.2.2

theorem Contains_of_Encloses {b c : Bounds3f} {p : Point3f} (h : b.Encloses c)
    (hp : c.Contains p) : b.Contains p :=
  ⟨h.1.trans hp.1, hp.2.1.trans h.2.2.2.1, h.2.1.trans hp.2.2.1,
    hp.2.2.2.1.trans h.2.2.2.2.1, h.2.2.1.trans hp.2.2.2.2.1,
    hp.2.2.2.2.2.trans h.2.2.2.2.2⟩

end Bounds3f

theorem UnionBounds_Encloses_left (b c : Bounds3f) : (UnionBounds b c).Encloses b :=
  ⟨min_le_left _ _, min_le_left _ _, min_le_left _ _, le_max_left _ _, le_max_left _ _,
    le_max_left _ _⟩

theorem UnionBounds_Encloses_right (b c : Bounds3f) : (UnionBounds b c).Encloses c :=
  ⟨min_le_right _ _, min_le_right _ _, min_le_right _ _, le_max_right _ _, le_max_right _ _,
    le_max_right _ _⟩

/-- The union of two boxes is the least box that reaches as far as both. -/
theorem UnionBounds_least {a b c : Bounds3f} (h1 : a.Encloses b) (h2 : a.Encloses c) :
    a.Encloses (UnionBounds b c) :=
  ⟨le_min h1.1 h2.1, le_min h1.2.1 h2.2.1, le_min h1.2.2.1 h2.2.2.1,
    max_le h1.2.2.2.1 h2.2.2.2.1, max_le h1.2.2.2.2.1 h2.2.2.2.2.1,
    max_le h1.2.2.2.2.2 h2.2.2.2.2.2⟩

/-- A box that already reaches as far as another is its union with it. -/
theorem UnionBounds_eq_left {b c : Bounds3f} (h : b.Encloses c) : UnionBounds b c = b :=
  Bounds3f.Encloses_antisymm (UnionBounds_Encloses_left b c)
    (UnionBounds_least (Bounds3f.Encloses_refl b) h)

namespace NaiveAccelerator

/-- The loop of `Build` from a starting box keeps it within the result. -/
theorem buildLoop_Encloses_start (cs : List Shape) (b : Bounds3f) :
    (List.foldl (fun b shape => UnionBounds b shape.WorldBound) b cs).Encloses b := by
  induction cs generalizing b with
  | nil => exact Bounds3f.Encloses_refl b
  | cons c cs ih =>
    exact Bounds3f.Encloses_trans (ih (UnionBounds b c.WorldBound))
      (UnionBounds_Encloses_left b c.WorldBound)

/-- The loop of `Build` reaches as far as the bound of every child. -/
theorem buildLoop_Encloses_child (cs : List Shape) (b : Bounds3f) (c : Shape) (hc : c ∈ cs) :
    (List.foldl (fun b shape => UnionBounds b shape.WorldBound) b cs).Encloses c.WorldBound := by
  induction cs generalizing b with
  | nil => simp at hc
  | cons x cs ih =>
    rcases List.mem_cons.mp hc with rfl | hc
    · exact Bounds3f.Encloses_trans (buildLoop_Encloses_start cs (UnionBounds b c.WorldBound))
        (UnionBounds_Encloses_right b c.WorldBound)
    · exact ih (UnionBounds b x.WorldBound) hc

/-- The loop of `Build` stays within every box that holds the starting box and
the bound of every child. -/
theorem buildLoop_least (cs : List Shape) (b a : Bounds3f) (hb : a.Encloses b)
    (hcs : ∀ c ∈ cs, a.Encloses c.WorldBound) :
    a.Encloses (List.foldl (fun b shape => UnionBounds b shape.WorldBound) b cs) := by
  induction cs generalizing b with
  | nil => exact hb
  | cons x cs ih =>
    exact ih (UnionBounds b x.WorldBound)
      (UnionBounds_least hb (hcs x (List.mem_cons_self x cs)))
      (fun c hc => hcs c (List.mem_cons_of_mem x hc))

/-- A starting box that reaches as far as every child is left as it is. -/
theorem buildLoop_fixed (cs : List Shape) (b : Bounds3f)
    (hcs : ∀ c ∈ cs, b.Encloses c.WorldBound) :
    List.foldl (fun b shape => UnionBounds b shape.WorldBound) b cs = b :=
  Bounds3f.Encloses_antisymm (buildLoop_Encloses_start cs b)
    (buildLoop_least cs b b (Bounds3f.Encloses_refl b) hcs)

theorem AddShape_foldl (batches : List (List Shape)) (acc : NaiveAccelerator) :
    (batches.foldl AddShape acc).primitives = acc.primitives ++ batches.flatten ∧
      (batches.foldl AddShape acc).bounds = acc.bounds := by
  induction batches generalizing acc with
  | nil => simp
  | cons x xs ih =>
    obtain ⟨h1, h2⟩ := ih (acc.AddShape x)
    refine ⟨?_, h2⟩
    rw [List.foldl_cons, h1]
    simp [AddShape]

end NaiveAccelerator

/-- C11: after any sequence of `AddShape` calls followed by `Build` on a fresh
`NaiveAccelerator`, the children are those added, in order, and `WorldBound`
reaches as far as the world bound of every child, hence contains the three
vertices of every child triangle; when the default box is neutral for the
union with every child's bound and there is a child, it is the least such box,
the union of the children's bounds. -/
theorem NaiveAccelerator.WorldBound_after_Build (maxNum : Float) (batches : List (List Shape)) :
    ((batches.foldl NaiveAccelerator.AddShape (NaiveAccelerator.fresh maxNum)).Build).primitives
      = batches.flatten ∧
    (∀ c ∈ batches.flatten,
      ((batches.foldl NaiveAccelerator.AddShape
        (NaiveAccelerator.fresh maxNum)).Build).WorldBound.Encloses c.WorldBound) ∧
    (∀ (env : Externals) (tri : Triangle), tri.toShape env ∈ batches.flatten →
      ((batches.foldl NaiveAccelerator.AddShape
          (NaiveAccelerator.fresh maxNum)).Build).WorldBound.Contains (tri.P 0) ∧
      ((batches.foldl NaiveAccelerator.AddShape
          (NaiveAccelerator.fresh maxNum)).Build).WorldBound.Contains (tri.P 1) ∧
      ((batches.foldl NaiveAccelerator.AddShape
          (NaiveAccelerator.fresh maxNum)).Build).WorldBound.Contains (tri.P 2)) ∧
    ((∀ c ∈ batches.flatten,
        UnionBounds (Bounds3f.empty maxNum) c.WorldBound = c.WorldBound) →
      batches.flatten ≠ [] →
      ∀ b : Bounds3f, (∀ c ∈ batches.flatten, b.Encloses c.WorldBound) →
        b.Encloses ((batches.foldl NaiveAccelerator.AddShape
          (NaiveAccelerator.fresh maxNum)).Build).WorldBound) := by
  obtain ⟨hp, hb⟩ := NaiveAccelerator.AddShape_foldl batches (NaiveAccelerator.fresh maxNum)
  have hp' : (batches.foldl NaiveAccelerator.AddShape (NaiveAccelerator.fresh maxNum)).primitives
      = batches.flatten := by rw [hp]; rfl
  have hb' : (batches.foldl NaiveAccelerator.AddShape (NaiveAccelerator.fresh maxNum)).bounds
      = Bounds3f.empty maxNum := by rw [hb]; rfl
  have hW : ((batches.foldl NaiveAccelerator.AddShape
      (NaiveAccelerator.fresh maxNum)).Build).WorldBound =
      List.foldl (fun b shape => UnionBounds b shape.WorldBound) (Bounds3f.empty maxNum)
        batches.flatten := by
    show List.foldl _ _ _ = _
    rw [hp', hb']
  have henc : ∀ c ∈ batches.flatten,
      ((batches.foldl NaiveAccelerator.AddShape
        (NaiveAccelerator.fresh maxNum)).Build).WorldBound.Encloses c.WorldBound := by
    intro c hc
    rw [hW]
    exact NaiveAccelerator.buildLoop_Encloses_child _ _ c hc
  refine ⟨hp', henc, ?_, ?_⟩
  · intro env tri hmem
    have h := henc _ hmem
    obtain ⟨h0, h1, h2⟩ := Triangle.WorldBound_contains tri
    exact ⟨Bounds3f.Contains_of_Encloses h h0, Bounds3f.Contains_of_Encloses h h1,
      Bounds3f.Contains_of_Encloses h h2⟩
  · intro hneutral hne b hall
    rw [hW]
    cases hl : batches.flatten with
    | nil => exact absurd hl hne
    | cons x xs =>
      rw [hl] at hneutral hall
      rw [List.foldl_cons, hneutral x (List.mem_cons_self x xs)]
      exact NaiveAccelerator.buildLoop_least xs _ b (hall x (List.mem_cons_self x xs))
        (fun c hc => hall c (List.mem_cons_of_mem x hc))

/-- C11 on a concrete collection: the triangle of S1 and the near triangle,
added in two calls to a fresh accelerator with `maxNum = 100`, give after
`Build` the box from `(0,0,0)` to `(1,1,1/2)`. -/
theorem NaiveAccelerator.WorldBound_after_Build_witness :
    ((([[triS1.toShape sampleEnv], [triNear.toShape sampleEnv]].foldl NaiveAccelerator.AddShape
        (NaiveAccelerator.fresh 100)).Build).WorldBound = ⟨⟨0, 0, 0⟩, ⟨1, 1, 1 / 2⟩⟩) ∧
    ((([[triS1.toShape sampleEnv], [triNear.toShape sampleEnv]].foldl NaiveAccelerator.AddShape
        (NaiveAccelerator.fresh 100)).Build).WorldBound.Contains (triNear.P 1)) := by
  have h := NaiveAccelerator.WorldBound_after_Build 100
    [[triS1.toShape sampleEnv], [triNear.toShape sampleEnv]]
  refine ⟨?_, (h.2.2.1 sampleEnv triNear (by simp)).2.1⟩
  simp [NaiveAccelerator.fresh, NaiveAccelerator.AddShape, NaiveAccelerator.Build,
    NaiveAccelerator.WorldBound, Bounds3f.empty, UnionBounds, Triangle.toShape,
    Triangle.WorldBound, Union, Bounds3f.ofPoints, triS1_P0, triS1_P1, triS1_P2, triNear_P0,
    triNear_P1, triNear_P2]
  norm_num

/-- C12: `Build` is idempotent: a second call, and any further number of
calls, leaves the accelerator (children and cached bound, so the result of
`WorldBound`) as the first call left it. -/
theorem NaiveAccelerator.Build_idempotent (acc : NaiveAccelerator) :
    acc.Build.Build = acc.Build ∧
    (∀ n : Nat, (NaiveAccelerator.Build^[n + 1]) acc = acc.Build) ∧
    acc.Build.Build.WorldBound = acc.Build.WorldBound ∧
    acc.Build.Build.primitives = acc.primitives := by
  have h2 : acc.Build.Build = acc.Build := by
    have hb : acc.Build.Build.bounds = acc.Build.bounds :=
      NaiveAccelerator.buildLoop_fixed acc.primitives acc.Build.bounds
        (fun c hc => NaiveAccelerator.buildLoop_Encloses_child acc.primitives acc.bounds c hc)
    show NaiveAccelerator.mk acc.primitives acc.Build.Build.bounds =
      NaiveAccelerator.mk acc.primitives acc.Build.bounds
    rw [hb]
  refine ⟨h2, ?_, by rw [h2], by rw [h2]; rfl⟩
  intro n
  induction n with
  | zero => rfl
  | succ k ih =>
    rw [Function.iterate_succ_apply', ih, h2]

/-! ## Area (C13) -/

theorem perm2_cases {α : Type} (y z b c : α) (h : List.Perm [y, z] [b, c]) :
    (y = b ∧ z = c) ∨ (y = c ∧ z = b) := by
  have hy : y ∈ [b, c] := h.subset (List.mem_cons_self y [z])
  simp only [List.mem_cons, List.mem_singleton, List.not_mem_nil, or_false] at hy
  rcases hy with rfl | rfl
  · left
    exact ⟨rfl, List.perm_singleton.mp ((List.perm_cons y).mp h) |> List.singleton_inj.mp⟩
  · right
    have h' : List.Perm [y, z] [y, b] := h.trans (List.Perm.swap y b [])
    exact ⟨rfl, List.perm_singleton.mp ((List.perm_cons y).mp h') |> List.singleton_inj.mp⟩

/-- The six ways in which three things can be listed in another order. -/
theorem perm3_cases {α : Type} (x y z a b c : α) (h : List.Perm [x, y, z] [a, b, c]) :
    (x = a ∧ y = b ∧ z = c) ∨ (x = a ∧ y = c ∧ z = b) ∨ (x = b ∧ y = a ∧ z = c) ∨
      (x = b ∧ y = c ∧ z = a) ∨ (x = c ∧ y = a ∧ z = b) ∨ (x = c ∧ y = b ∧ z = a) := by
  have hx : x ∈ [a, b, c] := h.subset (List.mem_cons_self x [y, z])
  simp only [List.mem_cons, List.mem_singleton, List.not_mem_nil, or_false] at hx
  rcases hx with rfl | rfl | rfl
  · rcases perm2_cases y z b c ((List.perm_cons x).mp h) with ⟨h1, h2⟩ | ⟨h1, h2⟩
    · exact Or.inl ⟨rfl, h1, h2⟩
    · exact Or.inr (Or.inl ⟨rfl, h1, h2⟩)
  · have h' : List.Perm [x, y, z] [x, a, c] := h.trans (List.Perm.swap x a [c])
    rcases perm2_cases y z a c ((List.perm_cons x).mp h') with ⟨h1, h2⟩ | ⟨h1, h2⟩
    · exact Or.inr (Or.inr (Or.inl ⟨rfl, h1, h2⟩))
    · exact Or.inr (Or.inr (Or.inr (Or.inl ⟨rfl, h1, h2⟩)))
  · have h' : List.Perm [x, y, z] [x, a, b] :=
      h.trans (@List.perm_append_comm _ [a, b] [x])
    rcases perm2_cases y z a b ((List.perm_cons x).mp h') with ⟨h1, h2⟩ | ⟨h1, h2⟩
    · exact Or.inr (Or.inr (Or.inr (Or.inr (Or.inl ⟨rfl, h1, h2⟩))))
    · exact Or.inr (Or.inr (Or.inr (Or.inr (Or.inr ⟨rfl, h1, h2⟩))))

theorem LengthSquared_nonneg (v : Vector3f) : 0 ≤ v.LengthSquared := by
  unfold Vector3f.LengthSquared
  nlinarith [mul_self_nonneg v.x, mul_self_nonneg v.y, mul_self_nonneg v.z]

theorem LengthSquared_eq_zero_iff (v : Vector3f) : v.LengthSquared = 0 ↔ v = 0 := by
  constructor
  · intro h
    by_contra hv
    exact absurd h ((LengthSquared_pos_iff v).mpr hv).ne'
  · intro h
    rw [h]
    simp [Vector3f.LengthSquared]

/-- The squared length of the cross product of the two edges at the first
vertex is the same for every order of the three vertices. -/
theorem cross_LengthSquared_perm (x y z a b c : Point3f) (h : List.Perm [x, y, z] [a, b, c]) :
    (Cross (y - x) (z - x)).LengthSquared = (Cross (b - a) (c - a)).LengthSquared := by
  rcases perm3_cases x y z a b c h with h | h | h | h | h | h <;>
  rw [h.1, h.2.1, h.2.2] <;>
  simp only [Vector3f.LengthSquared, Cross, Vector3f.sub_x, Vector3f.sub_y, Vector3f.sub_z] <;>
  ring

/-- A zero cross product of the two edges at the first vertex says that the
three vertices lie on one line. -/
theorem cross_eq_zero_iff_collinear (a b c : Point3f) :
    Cross (b - a) (c - a) = 0 ↔ (b = a ∨ ∃ k : Float, c - a = k * (b - a)) := by
  constructor
  · intro h
    have hx := congrArg Vector3f.x h
    have hy := congrArg Vector3f.y h
    have hz := congrArg Vector3f.z h
    simp only [Cross, Vector3f.sub_x, Vector3f.sub_y, Vector3f.sub_z, Vector3f.zero_x,
      Vector3f.zero_y, Vector3f.zero_z] at hx hy hz
    by_cases h1 : b.x - a.x = 0
    · by_cases h2 : b.y - a.y = 0
      · by_cases h3 : b.z - a.z = 0
        · left
          ext <;> linarith
        · right
          refine ⟨(c.z - a.z) / (b.z - a.z), ?_⟩
          ext <;> simp only [Vector3f.sub_x, Vector3f.sub_y, Vector3f.sub_z, Vector3f.smul_x,
            Vector3f.smul_y, Vector3f.smul_z] <;> field_simp
          · linear_combination hy
          · linear_combination -hx
      · right
        refine ⟨(c.y - a.y) / (b.y - a.y), ?_⟩
        ext <;> simp only [Vector3f.sub_x, Vector3f.sub_y, Vector3f.sub_z, Vector3f.smul_x,
          Vector3f.smul_y, Vector3f.smul_z] <;> field_simp
        · linear_combination -hz
        · linear_combination hx
    · right
      refine ⟨(c.x - a.x) / (b.x - a.x), ?_⟩
      ext <;> simp only [Vector3f.sub_x, Vector3f.sub_y, Vector3f.sub_z, Vector3f.smul_x,
        Vector3f.smul_y, Vector3f.smul_z] <;> field_simp
      · linear_combination hz
      · linear_combination -hy
  · rintro (rfl | ⟨k, hk⟩)
    · ext <;> simp [Cross]
    · have hx := congrArg Vector3f.x hk
      have hy := congrArg Vector3f.y hk
      have hz := congrArg Vector3f.z hk
      simp only [Vector3f.sub_x, Vector3f.sub_y, Vector3f.sub_z, Vector3f.smul_x,
        Vector3f.smul_y, Vector3f.smul_z] at hx hy hz
      ext <;> simp only [Cross, Vector3f.sub_x, Vector3f.sub_y, Vector3f.sub_z, Vector3f.zero_x,
        Vector3f.zero_y, Vector3f.zero_z]
      · rw [hy, hz]; ring
      · rw [hx, hz]; ring
      · rw [hx, hy]; ring

theorem sampleSqrt_zero : sampleSqrt 0 = 0 := by
  simp [sampleSqrt]

theorem sampleSqrt_pos (x : Float) (hx : 0 < x) : 0 < sampleSqrt x := by
  unfold sampleSqrt
  have hnum : 0 < x.num := Rat.num_pos.mpr hx
  have h1 : 0 < Nat.sqrt x.num.toNat := Nat.sqrt_pos.mpr (by omega)
  have h2 : 0 < Nat.sqrt x.den := Nat.sqrt_pos.mpr x.den_pos
  have h1' : (0 : ℚ) < (Nat.sqrt x.num.toNat : ℚ) := by exact_mod_cast h1
  have h2' : (0 : ℚ) < (Nat.sqrt x.den : ℚ) := by exact_mod_cast h2
  exact div_pos h1' h2'

/-- C13: `Triangle::Area` is one half the magnitude of the cross product of the
edge vectors `p1 - p0` and `p2 - p0`; it does not depend on the order in which
the three vertices are listed; and, the square root being zero at zero and
positive on positive numbers, it is non-negative and is zero exactly when the
cross product is the zero vector, that is when the three vertices lie on one
line. -/
theorem Triangle.Area_law (env : Externals) (tri : Triangle) (h0 : env.sqrt 0 = 0)
    (hpos : ∀ x : Float, 0 < x → 0 < env.sqrt x) :
    tri.Area env = (1 / 2) * (Cross (tri.P 1 - tri.P 0) (tri.P 2 - tri.P 0)).Length env ∧
    0 ≤ tri.Area env ∧
    (∀ tri' : Triangle, List.Perm [tri'.P 0, tri'.P 1, tri'.P 2] [tri.P 0, tri.P 1, tri.P 2] →
      tri'.Area env = tri.Area env) ∧
    (tri.Area env = 0 ↔ Cross (tri.P 1 - tri.P 0) (tri.P 2 - tri.P 0) = 0) ∧
    (tri.Area env = 0 ↔
      (tri.P 1 = tri.P 0 ∨ ∃ k : Float, tri.P 2 - tri.P 0 = k * (tri.P 1 - tri.P 0))) := by
  have hzero : tri.Area env = 0 ↔ Cross (tri.P 1 - tri.P 0) (tri.P 2 - tri.P 0) = 0 := by
    unfold Triangle.Area Vector3f.Length
    constructor
    · intro h
      by_contra hc
      have hl := hpos _ ((LengthSquared_pos_iff _).mpr hc)
      have : (1 / 2 : Float) * env.sqrt
          (Cross (tri.P 1 - tri.P 0) (tri.P 2 - tri.P 0)).LengthSquared > 0 := by positivity
      exact absurd h this.ne'
    · intro h
      rw [h, (LengthSquared_eq_zero_iff 0).mpr rfl, h0, mul_zero]
  refine ⟨rfl, ?_, ?_, hzero, hzero.trans (cross_eq_zero_iff_collinear _ _ _)⟩
  · unfold Triangle.Area Vector3f.Length
    rcases (LengthSquared_nonneg (Cross (tri.P 1 - tri.P 0) (tri.P 2 - tri.P 0))).eq_or_lt
      with h | h
    · rw [← h, h0, mul_zero]
    · have := hpos _ h
      positivity
  · intro tri' h
    unfold Triangle.Area Vector3f.Length
    rw [cross_LengthSquared_perm _ _ _ _ _ _ h]

/-- C13 on the triangle of S1, with a square root exact on squares: the area
is `1/2`, also with the vertices listed in another order; the degenerate
triangle of S6 has area zero. -/
theorem Triangle.Area_law_witness :
    triS1.Area sampleEnv = 1 / 2 ∧
    (oneFace ⟨0, 1, 0⟩ ⟨1, 0, 0⟩ ⟨0, 0, 0⟩ none).Area sampleEnv = triS1.Area sampleEnv ∧
    triS6.Area sampleEnv = 0 := by
  have h := Triangle.Area_law sampleEnv triS1 sampleSqrt_zero sampleSqrt_pos
  have h6 := Triangle.Area_law sampleEnv triS6 sampleSqrt_zero sampleSqrt_pos
  refine ⟨?_, ?_, ?_⟩
  · rw [h.1, triS1_P0, triS1_P1, triS1_P2]
    simp [Cross, Vector3f.Length, Vector3f.LengthSquared, sampleEnv, sampleSqrt_one]
  · apply h.2.2.1
    have e0 : (oneFace ⟨0, 1, 0⟩ ⟨1, 0, 0⟩ ⟨0, 0, 0⟩ none).P 0 = triS1.P 2 := rfl
    have e1 : (oneFace ⟨0, 1, 0⟩ ⟨1, 0, 0⟩ ⟨0, 0, 0⟩ none).P 1 = triS1.P 1 := rfl
    have e2 : (oneFace ⟨0, 1, 0⟩ ⟨1, 0, 0⟩ ⟨0, 0, 0⟩ none).P 2 = triS1.P 0 := rfl
    rw [e0, e1, e2]
    exact (List.reverse_perm [triS1.P 0, triS1.P 1, triS1.P 2])
  · apply h6.2.2.2.1.mpr
    rw [triS6_P0, triS6_P1, triS6_P2]
    simp [Cross, Vector3f.zero_def]

/-! ## Mesh creation (C14) -/

theorem getD_take {α : Type} (l : List α) (n j : Nat) (d : α) (h : j < n) :
    (l.take n).getD j d = l.getD j d := by
  rw [List.getD_eq_getElem?_getD, List.getD_eq_getElem?_getD, List.getElem?_take_of_lt h]

/-- C14: `CreateTriangleMesh` returns exactly `nTriangles` triangles; the
`i`-th one refers to the one mesh built from the arguments, is bound to the
entries `3i`, `3i+1`, `3i+2` of the vertex indices, and has the face id
`faceIndices[i]` when face ids are supplied and `0` when they are absent. -/
theorem CreateTriangleMesh_faces (object2world world2object : Transform) (nTriangles : Nat)
    (vertexIndices : List Nat) (nVertices : Nat) (p : List Point3f)
    (s : Option (List Vector3f)) (n : Option (List Normal3f)) (uv : Option (List Point2f))
    (faceIndices : Option (List Int)) (i : Nat) (hi : i < nTriangles) :
    (CreateTriangleMesh object2world world2object nTriangles vertexIndices nVertices p s n uv
      faceIndices).length = nTriangles ∧
    ∃ tri : Triangle,
      (CreateTriangleMesh object2world world2object nTriangles vertexIndices nVertices p s n uv
        faceIndices)[i]? = some tri ∧
      tri.mesh = TriangleMesh.create object2world nTriangles vertexIndices nVertices p s n uv
        faceIndices ∧
      tri.v = 3 * i ∧
      tri.vi 0 = vertexIndices.getD (3 * i) 0 ∧
      tri.vi 1 = vertexIndices.getD (3 * i + 1) 0 ∧
      tri.vi 2 = vertexIndices.getD (3 * i + 2) 0 ∧
      (faceIndices = none → tri.face_index = 0) ∧
      (∀ f : List Int, faceIndices = some f → tri.face_index = f.getD i 0) := by
  refine ⟨by simp [CreateTriangleMesh], Triangle.create (TriangleMesh.create object2world
    nTriangles vertexIndices nVertices p s n uv faceIndices) i, ?_, rfl, rfl, ?_, ?_, ?_, ?_, ?_⟩
  · simp [CreateTriangleMesh, List.getElem?_range hi]
  · exact getD_take vertexIndices (3 * nTriangles) (3 * i + 0) 0 (by omega)
  · exact getD_take vertexIndices (3 * nTriangles) (3 * i + 1) 0 (by omega)
  · exact getD_take vertexIndices (3 * nTriangles) (3 * i + 2) 0 (by omega)
  · intro hf
    subst hf
    rfl
  · intro f hf
    subst hf
    show (if (f.take nTriangles).length ≠ 0 then (f.take nTriangles).getD i 0 else 0) = _
    rw [getD_take f nTriangles i 0 hi]
    split_ifs with h
    · rfl
    · have hlen : (f.take nTriangles).length = 0 := not_not.mp h
      have : f = [] := by
        rcases List.take_eq_nil_iff.mp (List.length_eq_zero.mp hlen) with h1 | h1
        · omega
        · exact h1
      rw [this]
      rfl

/-- C14 on a mesh of two faces over four vertices with face ids 7 and 9: two
triangles; the second is bound to the indices `2, 1, 3` and has face id 9;
without face ids its face id is 0. -/
theorem CreateTriangleMesh_faces_witness :
    (CreateTriangleMesh Transform.identity Transform.identity 2 [0, 1, 2, 2, 1, 3] 4
      [⟨0, 0, 0⟩, ⟨1, 0, 0⟩, ⟨0, 1, 0⟩, ⟨1, 1, 0⟩] none none none (some [7, 9])).length = 2 ∧
    ∃ tri : Triangle,
      (CreateTriangleMesh Transform.identity Transform.identity 2 [0, 1, 2, 2, 1, 3] 4
        [⟨0, 0, 0⟩, ⟨1, 0, 0⟩, ⟨0, 1, 0⟩, ⟨1, 1, 0⟩] none none none (some [7, 9]))[1]? = some tri ∧
      tri.vi 0 = 2 ∧ tri.vi 1 = 1 ∧ tri.vi 2 = 3 ∧ tri.face_index = 9 := by
  obtain ⟨hlen, tri, h1, _, _, v0, v1, v2, _, hf⟩ :=
    CreateTriangleMesh_faces Transform.identity Transform.identity 2 [0, 1, 2, 2, 1, 3] 4
      [⟨0, 0, 0⟩, ⟨1, 0, 0⟩, ⟨0, 1, 0⟩, ⟨1, 1, 0⟩] none none none (some [7, 9]) 1 (by decide)
  exact ⟨hlen, tri, h1, v0, v1, v2, hf [7, 9] rfl⟩

/-! ## The projection axis (C15, C16) -/

/-- C15, as stated, fails: for `d = (1,1,0)`, where `|d.x| = |d.y|` are
maximal, `Triangle::Intersect` picks `kz = 1`, not 0; for `d = (0,1,1)`, where
`|d.y| = |d.z|` are maximal and exceed `|d.x|`, it picks `kz = 2`, not 1. -/
theorem projection_axis_tie_counterexample :
    |rayTieXY.d.x| = |rayTieXY.d.y| ∧ |rayTieXY.d.z| ≤ |rayTieXY.d.x| ∧
    (triS1.locals rayTieXY).kz = 1 ∧ (triS1.locals rayTieXY).kz ≠ 0 ∧
    |rayTieYZ.d.y| = |rayTieYZ.d.z| ∧ |rayTieYZ.d.x| < |rayTieYZ.d.y| ∧
    (triS1.locals rayTieYZ).kz = 2 ∧ (triS1.locals rayTieYZ).kz ≠ 1 := by
  have h1 : (triS1.locals rayTieXY).kz = 1 := by
    show chooseKz rayTieXY.d = 1
    simp [chooseKz, Abs, rayTieXY]
  have h2 : (triS1.locals rayTieYZ).kz = 2 := by
    show chooseKz rayTieYZ.d = 2
    simp [chooseKz, Abs, rayTieYZ]
  refine ⟨by simp [rayTieXY], by simp [rayTieXY], h1, by rw [h1]; decide, by simp [rayTieYZ],
    by simp [rayTieYZ], h2, by rw [h2]; decide⟩

/-- C15, amended: ties go to the later axis. When `|d.x| = |d.y|` and both
exceed `|d.z|`, `Triangle::Intersect` picks `kz = 1` (y); when `|d.y| = |d.z|`
and both are at least `|d.x|`, it picks `kz = 2` (z); and when `|d.x| = |d.z|`
and both are at least `|d.y|`, it picks `kz = 2` (z). The x axis is picked only
when `|d.x|` exceeds both others. -/
theorem projection_axis_ties (tri : Triangle) (ray : Ray) :
    (|ray.d.x| = |ray.d.y| → |ray.d.z| < |ray.d.x| → (tri.locals ray).kz = 1) ∧
    (|ray.d.y| = |ray.d.z| → |ray.d.x| ≤ |ray.d.y| → (tri.locals ray).kz = 2) ∧
    (|ray.d.x| = |ray.d.z| → |ray.d.y| ≤ |ray.d.x| → (tri.locals ray).kz = 2) ∧
    ((tri.locals ray).kz = 0 ↔ (|ray.d.y| < |ray.d.x| ∧ |ray.d.z| < |ray.d.x|)) := by
  have hk : (tri.locals ray).kz = chooseKz ray.d := rfl
  rw [hk]
  unfold chooseKz Abs
  dsimp only
  refine ⟨?_, ?_, ?_, ?_⟩
  · intro h1 h2
    rw [if_neg (by rw [h1]; exact lt_irrefl _), if_pos (by rw [← h1]; exact h2)]
  · intro h1 h2
    rw [if_neg (not_lt.mpr h2), if_neg (by rw [h1]; exact lt_irrefl _)]
  · intro h1 h2
    split_ifs with a b c
    · exact absurd b (by rw [h1]; exact lt_irrefl _)
    · rfl
    · exact absurd c (not_lt.mpr (by rw [← h1]; exact h2))
    · rfl
  · split_ifs with a b c
    · exact ⟨fun _ => ⟨a, b⟩, fun _ => rfl⟩
    · exact ⟨fun h => absurd h (by decide), fun h => absurd h.2 b⟩
    · exact ⟨fun h => absurd h (by decide), fun h => absurd h.1 a⟩
    · exact ⟨fun h => absurd h (by decide), fun h => absurd h.1 a⟩

/-- C15, amended, on the two inputs of the claim: `d = (1,1,0)` gives `kz = 1`
and `d = (0,1,1)` gives `kz = 2`. -/
theorem projection_axis_ties_witness :
    (triS1.locals rayTieXY).kz = 1 ∧ (triS1.locals rayTieYZ).kz = 2 :=
  ⟨(projection_axis_ties triS1 rayTieXY).1 (by simp [rayTieXY]) (by simp [rayTieXY]),
    (projection_axis_ties triS1 rayTieYZ).2.1 (by simp [rayTieYZ]) (by simp [rayTieYZ])⟩

/-- C16: the axis `kz` chosen by `Triangle::Intersect` carries a component of
largest magnitude of the direction, so that for a non-zero direction the
divisor `d.z` of the shear constants is not zero; `kx` and `ky` are the next
axes in cyclic order, and `(kx, ky, kz)` is a cyclic permutation of
`(0, 1, 2)`. -/
theorem shear_axis_safe (tri : Triangle) (ray : Ray) :
    (|ray.d.x| ≤ |ray.d.get (tri.locals ray).kz| ∧ |ray.d.y| ≤ |ray.d.get (tri.locals ray).kz| ∧
      |ray.d.z| ≤ |ray.d.get (tri.locals ray).kz|) ∧
    (ray.d ≠ 0 → ray.d.get (tri.locals ray).kz ≠ 0) ∧
    (tri.locals ray).d = Permute ray.d (tri.locals ray).kx (tri.locals ray).ky
      (tri.locals ray).kz ∧
    (ray.d ≠ 0 → (tri.locals ray).d.z ≠ 0) ∧
    (tri.locals ray).kx = ((tri.locals ray).kz + 1) % 3 ∧
    (tri.locals ray).ky = ((tri.locals ray).kx + 1) % 3 ∧
    (((tri.locals ray).kx = 1 ∧ (tri.locals ray).ky = 2 ∧ (tri.locals ray).kz = 0) ∨
      ((tri.locals ray).kx = 2 ∧ (tri.locals ray).ky = 0 ∧ (tri.locals ray).kz = 1) ∨
      ((tri.locals ray).kx = 0 ∧ (tri.locals ray).ky = 1 ∧ (tri.locals ray).kz = 2)) := by
  have hk : (tri.locals ray).kz = chooseKz ray.d := rfl
  have hx : (tri.locals ray).kx = nextAxis (chooseKz ray.d) := rfl
  have hy : (tri.locals ray).ky = nextAxis (nextAxis (chooseKz ray.d)) := rfl
  refine ⟨by rw [hk]; exact chooseKz_max ray.d, by rw [hk]; exact chooseKz_ne_zero ray.d, rfl,
    fun h => chooseKz_ne_zero ray.d h, ?_, ?_, ?_⟩
  · rw [hx, hk]
    rcases chooseKz_cases ray.d with h | h | h <;> rw [h] <;> rfl
  · rw [hy, hx]
    rcases chooseKz_cases ray.d with h | h | h <;> rw [h] <;> rfl
  · rw [hx, hy, hk]
    rcases chooseKz_cases ray.d with h | h | h <;> rw [h] <;> simp

/-- C16 on the ray of S1, `d = (0,0,-1)`: `kz = 2`, `kx = 0`, `ky = 1`, and the
divisor is `-1`. -/
theorem shear_axis_safe_witness :
    (triS1.locals rayS1).kz = 2 ∧ (triS1.locals rayS1).kx = 0 ∧ (triS1.locals rayS1).ky = 1 ∧
    (triS1.locals rayS1).d.z = -1 ∧ (triS1.locals rayS1).d.z ≠ 0 := by
  have hk : (triS1.locals rayS1).kz = 2 := by
    show chooseKz rayS1.d = 2
    simp [chooseKz, Abs, rayS1]
  have h := shear_axis_safe triS1 rayS1
  have hne : rayS1.d ≠ 0 := by
    intro hc
    have := congrArg Vector3f.z hc
    simp [rayS1] at this
  refine ⟨hk, ?_, ?_, ?_, h.2.2.2.1 hne⟩
  · rw [h.2.2.2.2.1, hk]
  · rw [h.2.2.2.2.2.1, h.2.2.2.2.1, hk]
  · rw [h.2.2.1, hk]
    simp [Permute, rayS1]

/-! ## The hit point on the ray, completeness, winding (C17 to C19) -/

namespace Triangle

/-- The combination of the translated vertices with the edge functions is the
direction scaled by `tScaled`, read on one axis. -/
theorem locals_combination_get (tri : Triangle) (ray : Ray) (k : Nat) (hd : dz ray ≠ 0) :
    (tri.locals ray).e0 * (tri.q ray 0).get k + (tri.locals ray).e1 * (tri.q ray 1).get k +
      (tri.locals ray).e2 * (tri.q ray 2).get k = (tri.locals ray).tScaled * ray.d.get k := by
  have hc := cramer_get ray.d (tri.q ray 0) (tri.q ray 1) (tri.q ray 2) k
  rw [← locals_e0_mul tri ray hd, ← locals_e1_mul tri ray hd, ← locals_e2_mul tri ray hd,
    ← locals_tScaled_mul tri ray hd] at hc
  apply mul_right_cancel₀ hd
  linear_combination hc

/-- On a hit by a ray of non-zero direction, the combination of the vertices
with the barycentrics is the point of the ray at the computed distance, read
on one axis. -/
theorem hit_on_ray_get (env : Externals) (tri : Triangle) (ray : Ray)
    (isect : SurfaceIntersection) (k : Nat) (hd : ray.d ≠ 0)
    (h : (tri.Intersect env ray isect).1 = true) :
    (tri.locals ray).b0 * (tri.P 0).get k + (tri.locals ray).b1 * (tri.P 1).get k +
      (tri.locals ray).b2 * (tri.P 2).get k = ray.o.get k + (tri.locals ray).t * ray.d.get k := by
  have hdz : dz ray ≠ 0 := chooseKz_ne_zero ray.d hd
  have hdet := ((Intersect_hit_iff env tri ray isect).mp h).2.1
  have hsum := hit_b_sum env tri ray isect h
  have hc := locals_combination_get tri ray k hdz
  have q0 : (tri.q ray 0).get k = (tri.P 0).get k - ray.o.get k := by
    unfold Vector3f.get q; split_ifs <;> rfl
  have q1 : (tri.q ray 1).get k = (tri.P 1).get k - ray.o.get k := by
    unfold Vector3f.get q; split_ifs <;> rfl
  have q2 : (tri.q ray 2).get k = (tri.P 2).get k - ray.o.get k := by
    unfold Vector3f.get q; split_ifs <;> rfl
  rw [q0, q1, q2] at hc
  rw [locals_b0, locals_b1, locals_b2] at hsum ⊢
  rw [locals_t]
  field_simp at hsum ⊢
  linear_combination hc + ray.o.get k * hsum

end Triangle

/-- C17: for every triangle and every ray of non-zero direction, whenever
`Triangle::Intersect` returns true the recorded hit point
`b0 * p0 + b1 * p1 + b2 * p2` is the point `ray.o + t * ray.d` of the ray, with
`t = tScaled / det` the distance computed by the routine. -/
theorem Triangle.Intersect_hit_point_on_ray (env : Externals) (tri : Triangle) (ray : Ray)
    (isect : SurfaceIntersection) (hd : ray.d ≠ 0)
    (h : (tri.Intersect env ray isect).1 = true) :
    (tri.Intersect env ray isect).2.p = ray.o + (tri.locals ray).t * ray.d ∧
    (tri.Intersect env ray isect).2.p =
      (tri.locals ray).b0 * tri.P 0 + (tri.locals ray).b1 * tri.P 1 +
        (tri.locals ray).b2 * tri.P 2 ∧
    (tri.locals ray).t = (tri.locals ray).tScaled / (tri.locals ray).det := by
  refine ⟨?_, Triangle.hit_point env tri ray isect h, Triangle.locals_t tri ray⟩
  rw [Triangle.hit_point env tri ray isect h]
  have h0 := Triangle.hit_on_ray_get env tri ray isect 0 hd h
  have h1 := Triangle.hit_on_ray_get env tri ray isect 1 hd h
  have h2 := Triangle.hit_on_ray_get env tri ray isect 2 hd h
  simp only [Vector3f.get_zero, Vector3f.get_one, Vector3f.get_two] at h0 h1 h2
  ext
  · simpa using h0
  · simpa using h1
  · simpa using h2

theorem raySlanted_d_ne_zero : raySlanted.d ≠ 0 := by
  intro hc
  have := congrArg Vector3f.z hc
  simp [raySlanted] at this

/-- C17 on the triangle of S1 and a slanted ray of non-unit direction: a hit
at `t = 1/2`, recorded at `(1/2, 1/2, 0) = o + t * d`. -/
theorem Triangle.Intersect_hit_point_on_ray_witness :
    (triS1.Intersect sampleEnv raySlanted isectInit).1 = true ∧
    (triS1.locals raySlanted).t = 1 / 2 ∧
    (triS1.Intersect sampleEnv raySlanted isectInit).2.p = ⟨1 / 2, 1 / 2, 0⟩ ∧
    (triS1.Intersect sampleEnv raySlanted isectInit).2.p
      = raySlanted.o + (triS1.locals raySlanted).t * raySlanted.d := by
  have hit : (triS1.Intersect sampleEnv raySlanted isectInit).1 = true := by
    simp [Triangle.Intersect, Triangle.locals, chooseKz, Abs, Permute, shear, triS1_P0,
      triS1_P1, triS1_P2, raySlanted]
    norm_num
  have ht : (triS1.locals raySlanted).t = 1 / 2 := by
    simp [Triangle.locals, chooseKz, Abs, Permute, shear, triS1_P0, triS1_P1, triS1_P2,
      raySlanted]
    norm_num
  have h := Triangle.Intersect_hit_point_on_ray sampleEnv triS1 raySlanted isectInit
    raySlanted_d_ne_zero hit
  refine ⟨hit, ht, ?_, h.1⟩
  rw [h.1, ht]
  simp [raySlanted]
  norm_num

theorem triS1Flipped_P0 : triS1Flipped.P 0 = ⟨0, 0, 0⟩ := rfl
theorem triS1Flipped_P1 : triS1Flipped.P 1 = ⟨0, 1, 0⟩ := rfl
theorem triS1Flipped_P2 : triS1Flipped.P 2 = ⟨1, 0, 0⟩ := rfl

/-- C18: when the direction of the ray is not parallel to the plane of the
triangle (which makes the triangle non-degenerate and the direction non-zero)
and the ray meets the closed triangle within range, that is
`ray.o + t * ray.d = b0 * p0 + b1 * p1 + b2 * p2` with `0 < t ≤ tmax`,
`b0, b1, b2 ≥ 0` and `b0 + b1 + b2 = 1`, then `Triangle::Intersect` returns
true, whatever the winding and the side the ray comes from, and the distance
and barycentrics it computes are `t` and `b0, b1, b2`. -/
theorem Triangle.Intersect_completeness (env : Externals) (tri : Triangle) (ray : Ray)
    (isect : SurfaceIntersection) (t b0 b1 b2 : Float)
    (hN : Dot ray.d tri.crossN ≠ 0)
    (ht : 0 < t) (htmax : t ≤ ray.tmax)
    (h0 : 0 ≤ b0) (h1 : 0 ≤ b1) (h2 : 0 ≤ b2) (hsum : b0 + b1 + b2 = 1)
    (hp : ray.o + t * ray.d = b0 * tri.P 0 + b1 * tri.P 1 + b2 * tri.P 2) :
    (tri.Intersect env ray isect).1 = true ∧
    tri.crossN ≠ 0 ∧ ray.d ≠ 0 ∧
    (tri.locals ray).t = t ∧ (tri.locals ray).b0 = b0 ∧ (tri.locals ray).b1 = b1 ∧
    (tri.locals ray).b2 = b2 := by
  obtain ⟨hdet, e0, e1, e2, hts⟩ := Triangle.locals_of_meeting tri ray t b0 b1 b2 ht.ne' hsum hp hN
  refine ⟨Triangle.Intersect_complete env tri ray isect t b0 b1 b2 ht htmax h0 h1 h2 hsum hp hN,
    ?_, ?_, ?_, ?_, ?_, ?_⟩
  · intro hc
    apply hN
    rw [hc]
    simp [Dot]
  · intro hc
    apply hN
    rw [hc]
    simp [Dot]
  · rw [Triangle.locals_t, hts, mul_div_assoc, div_self hdet, mul_one]
  · rw [Triangle.locals_b0, e0, mul_div_assoc, div_self hdet, mul_one]
  · rw [Triangle.locals_b1, e1, mul_div_assoc, div_self hdet, mul_one]
  · rw [Triangle.locals_b2, e2, mul_div_assoc, div_self hdet, mul_one]

/-- C18 on the point `(1/4, 1/4, 0)` of the triangle of S1, met at `t = 1`:
from above by the ray of S1, from below by a ray along `+z`, and from above
with the winding of the triangle reversed; all three calls return true. -/
theorem Triangle.Intersect_completeness_witness :
    (triS1.Intersect sampleEnv rayS1 isectInit).1 = true ∧
    (triS1.Intersect sampleEnv rayFromBelow isectInit).1 = true ∧
    (triS1Flipped.Intersect sampleEnv rayS1 isectInit).1 = true := by
  refine ⟨?_, ?_, ?_⟩
  · refine (Triangle.Intersect_completeness sampleEnv triS1 rayS1 isectInit 1 (1 / 2) (1 / 4)
      (1 / 4) ?_ (by norm_num) (by norm_num [rayS1]) (by norm_num) (by norm_num) (by norm_num)
      (by norm_num) ?_).1
    · simp [Dot, Cross, Triangle.crossN, triS1_P0, triS1_P1, triS1_P2, rayS1]
    · rw [triS1_P0, triS1_P1, triS1_P2]
      simp [rayS1]
  · refine (Triangle.Intersect_completeness sampleEnv triS1 rayFromBelow isectInit 1 (1 / 2)
      (1 / 4) (1 / 4) ?_ (by norm_num) (by norm_num [rayFromBelow]) (by norm_num) (by norm_num)
      (by norm_num) (by norm_num) ?_).1
    · simp [Dot, Cross, Triangle.crossN, triS1_P0, triS1_P1, triS1_P2, rayFromBelow]
    · rw [triS1_P0, triS1_P1, triS1_P2]
      simp [rayFromBelow]
  · refine (Triangle.Intersect_completeness sampleEnv triS1Flipped rayS1 isectInit 1 (1 / 2)
      (1 / 4) (1 / 4) ?_ (by norm_num) (by norm_num [rayS1]) (by norm_num) (by norm_num)
      (by norm_num) (by norm_num) ?_).1
    · simp [Dot, Cross, Triangle.crossN, triS1Flipped_P0, triS1Flipped_P1, triS1Flipped_P2, rayS1]
    · rw [triS1Flipped_P0, triS1Flipped_P1, triS1Flipped_P2]
      simp [rayS1]

theorem passes_rot (e0 e1 e2 ts tm : Float) : passes e1 e2 e0 ts tm ↔ passes e0 e1 e2 ts tm := by
  unfold passes
  have hs : e1 + e2 + e0 = e0 + e1 + e2 := by ring
  have r1 : (e1 < 0 ∨ e2 < 0 ∨ e0 < 0) ↔ (e0 < 0 ∨ e1 < 0 ∨ e2 < 0) := or_rotate.symm
  have r2 : (e1 > 0 ∨ e2 > 0 ∨ e0 > 0) ↔ (e0 > 0 ∨ e1 > 0 ∨ e2 > 0) := or_rotate.symm
  rw [hs, r1, r2]

theorem passes_swap (e0 e1 e2 ts tm : Float) : passes e1 e0 e2 ts tm ↔ passes e0 e1 e2 ts tm := by
  unfold passes
  have hs : e1 + e0 + e2 = e0 + e1 + e2 := by ring
  have r1 : (e1 < 0 ∨ e0 < 0 ∨ e2 < 0) ↔ (e0 < 0 ∨ e1 < 0 ∨ e2 < 0) := or_left_comm
  have r2 : (e1 > 0 ∨ e0 > 0 ∨ e2 > 0) ↔ (e0 > 0 ∨ e1 > 0 ∨ e2 > 0) := or_left_comm
  rw [hs, r1, r2]

theorem passes_neg (e0 e1 e2 ts tm : Float) :
    passes (-e0) (-e1) (-e2) (-ts) tm ↔ passes e0 e1 e2 ts tm := by
  unfold passes
  have hs : -e0 + -e1 + -e2 = -(e0 + e1 + e2) := by ring
  rw [hs]
  simp only [neg_lt_zero, neg_pos, gt_iff_lt, ge_iff_le, neg_nonneg, neg_nonpos, mul_neg,
    neg_lt_neg_iff, neg_ne_zero, ne_eq]
  constructor
  · rintro ⟨h1, h2, h3, h4⟩
    exact ⟨fun ⟨a, b⟩ => h1 ⟨b, a⟩, h2, h4, h3⟩
  · rintro ⟨h1, h2, h3, h4⟩
    exact ⟨fun ⟨a, b⟩ => h1 ⟨b, a⟩, h2, h4, h3⟩

namespace Triangle

theorem Intersect_hit_iff_passes (env : Externals) (tri : Triangle) (ray : Ray)
    (isect : SurfaceIntersection) :
    (tri.Intersect env ray isect).1 = true ↔
      passes (tri.locals ray).e0 (tri.locals ray).e1 (tri.locals ray).e2
        (tri.locals ray).tScaled ray.tmax := by
  rw [Intersect_hit_iff, locals_det]
  rfl

/-- The locals of a triangle with the first two vertices exchanged. -/
theorem locals_swap01 (tri tri' : Triangle) (ray : Ray) (h0 : tri'.P 0 = tri.P 1)
    (h1 : tri'.P 1 = tri.P 0) (h2 : tri'.P 2 = tri.P 2) :
    (tri'.locals ray).e0 = -(tri.locals ray).e1 ∧ (tri'.locals ray).e1 = -(tri.locals ray).e0 ∧
    (tri'.locals ray).e2 = -(tri.locals ray).e2 ∧
    (tri'.locals ray).tScaled = -(tri.locals ray).tScaled := by
  refine ⟨?_, ?_, ?_, ?_⟩ <;> simp only [locals, h0, h1, h2, shear] <;> ring

/-- The locals of a triangle with the vertices rotated: `(p1, p2, p0)`. -/
theorem locals_rot (tri tri' : Triangle) (ray : Ray) (h0 : tri'.P 0 = tri.P 1)
    (h1 : tri'.P 1 = tri.P 2) (h2 : tri'.P 2 = tri.P 0) :
    (tri'.locals ray).e0 = (tri.locals ray).e1 ∧ (tri'.locals ray).e1 = (tri.locals ray).e2 ∧
    (tri'.locals ray).e2 = (tri.locals ray).e0 ∧
    (tri'.locals ray).tScaled = (tri.locals ray).tScaled := by
  refine ⟨?_, ?_, ?_, ?_⟩ <;> simp only [locals, h0, h1, h2, shear]
  ring

/-- A triangle with the same three vertices in the same order. -/
theorem sameHit_of_eq (tri tri' : Triangle) (ray : Ray) (h0 : tri'.P 0 = tri.P 0)
    (h1 : tri'.P 1 = tri.P 1) (h2 : tri'.P 2 = tri.P 2) : sameHit tri' tri ray := by
  have hl : tri'.locals ray = tri.locals ray := by simp only [locals, h0, h1, h2]
  unfold sameHit
  rw [hl, h0, h1, h2]
  exact ⟨Iff.rfl, rfl, rfl, Or.inl rfl⟩

theorem sameHit_trans {a b c : Triangle} {ray : Ray} (h1 : sameHit a b ray)
    (h2 : sameHit b c ray) : sameHit a c ray := by
  obtain ⟨p1, t1, q1, n1⟩ := h1
  obtain ⟨p2, t2, q2, n2⟩ := h2
  refine ⟨p1.trans p2, t1.trans t2, q1.trans q2, ?_⟩
  rcases n1 with n1 | n1 <;> rcases n2 with n2 | n2 <;> rw [n1, n2]
  · exact Or.inl rfl
  · exact Or.inr rfl
  · exact Or.inr rfl
  · left
    ext <;> simp

/-- Rotating the vertices to `(p1, p2, p0)` changes nothing. -/
theorem sameHit_rot (tri tri' : Triangle) (ray : Ray) (h0 : tri'.P 0 = tri.P 1)
    (h1 : tri'.P 1 = tri.P 2) (h2 : tri'.P 2 = tri.P 0) : sameHit tri' tri ray := by
  obtain ⟨r0, r1, r2, rt⟩ := locals_rot tri tri' ray h0 h1 h2
  have hdet : (tri'.locals ray).det = (tri.locals ray).det := by
    rw [locals_det, locals_det, r0, r1, r2]
    ring
  refine ⟨?_, ?_, ?_, ?_⟩
  · rw [r0, r1, r2, rt]
    exact passes_rot _ _ _ _ _
  · rw [locals_t, locals_t, rt, hdet]
  · rw [locals_b0, locals_b1, locals_b2, locals_b0, locals_b1, locals_b2, r0, r1, r2, hdet, h0,
      h1, h2]
    ext <;> simp <;> ring
  · left
    rw [h0, h1, h2]
    ext <;> simp [Cross] <;> ring

/-- Exchanging the first two vertices negates the edge functions, the
determinant and the scaled distance, and changes nothing else. -/
theorem sameHit_swap01 (tri tri' : Triangle) (ray : Ray) (h0 : tri'.P 0 = tri.P 1)
    (h1 : tri'.P 1 = tri.P 0) (h2 : tri'.P 2 = tri.P 2) : sameHit tri' tri ray := by
  obtain ⟨r0, r1, r2, rt⟩ := locals_swap01 tri tri' ray h0 h1 h2
  have hdet : (tri'.locals ray).det = -(tri.locals ray).det := by
    rw [locals_det, locals_det, r0, r1, r2]
    ring
  refine ⟨?_, ?_, ?_, ?_⟩
  · rw [r0, r1, r2, rt]
    exact (passes_neg _ _ _ _ _).trans (passes_swap _ _ _ _ _)
  · rw [locals_t, locals_t, rt, hdet, neg_div_neg_eq]
  · rw [locals_b0, locals_b1, locals_b2, locals_b0, locals_b1, locals_b2, r0, r1, r2, hdet,
      neg_div_neg_eq, neg_div_neg_eq, neg_div_neg_eq, h0, h1, h2]
    ext <;> simp <;> ring
  · right
    rw [h0, h1, h2]
    ext <;> simp [Cross] <;> ring

/-- Any order of the same three vertices is treated alike. -/
theorem sameHit_of_perm (tri tri' : Triangle) (ray : Ray)
    (h : List.Perm [tri'.P 0, tri'.P 1, tri'.P 2] [tri.P 0, tri.P 1, tri.P 2]) :
    sameHit tri' tri ray := by
  rcases perm3_cases _ _ _ _ _ _ h with ⟨h0, h1, h2⟩ | ⟨h0, h1, h2⟩ | ⟨h0, h1, h2⟩ |
    ⟨h0, h1, h2⟩ | ⟨h0, h1, h2⟩ | ⟨h0, h1, h2⟩
  · exact sameHit_of_eq tri tri' ray h0 h1 h2
  · exact sameHit_trans
      (sameHit_rot (oneFace (tri.P 1) (tri.P 0) (tri.P 2) none) tri' ray h0 h1 h2)
      (sameHit_swap01 tri (oneFace (tri.P 1) (tri.P 0) (tri.P 2) none) ray rfl rfl rfl)
  · exact sameHit_swap01 tri tri' ray h0 h1 h2
  · exact sameHit_rot tri tri' ray h0 h1 h2
  · exact sameHit_trans
      (sameHit_rot (oneFace (tri.P 1) (tri.P 2) (tri.P 0) none) tri' ray h0 h1 h2)
      (sameHit_rot tri (oneFace (tri.P 1) (tri.P 2) (tri.P 0) none) ray rfl rfl rfl)
  · exact sameHit_trans
      (sameHit_swap01 (oneFace (tri.P 1) (tri.P 2) (tri.P 0) none) tri' ray h0 h1 h2)
      (sameHit_rot tri (oneFace (tri.P 1) (tri.P 2) (tri.P 0) none) ray rfl rfl rfl)

end Triangle
theorem Normalize_neg (env : Externals) (v : Vector3f) : Normalize env (-v) = -Normalize env v := by
  have hl : (-v).LengthSquared = v.LengthSquared := by
    simp only [Vector3f.LengthSquared, Vector3f.neg_x, Vector3f.neg_y, Vector3f.neg_z]
    ring
  unfold Normalize Vector3f.Length
  rw [hl]
  ext <;> simp [neg_div]

/-- C19: for every triangle, every ray and every order of the triangle's three
vertices, `Triangle::Intersect` returns the same boolean; on a hit it records
the same hit point and computes the same distance `t`; and the geometric
normal is the same or the opposite one. -/
theorem Triangle.Intersect_winding_independent (env : Externals) (tri tri' : Triangle)
    (ray : Ray) (isect : SurfaceIntersection)
    (h : List.Perm [tri'.P 0, tri'.P 1, tri'.P 2] [tri.P 0, tri.P 1, tri.P 2]) :
    (tri'.Intersect env ray isect).1 = (tri.Intersect env ray isect).1 ∧
    ((tri.Intersect env ray isect).1 = true →
      (tri'.Intersect env ray isect).2.p = (tri.Intersect env ray isect).2.p ∧
      (tri'.locals ray).t = (tri.locals ray).t ∧
      ((tri'.Intersect env ray isect).2.geo_frame.n = (tri.Intersect env ray isect).2.geo_frame.n ∨
        (tri'.Intersect env ray isect).2.geo_frame.n =
          -(tri.Intersect env ray isect).2.geo_frame.n)) := by
  obtain ⟨hp, ht, hq, hn⟩ := Triangle.sameHit_of_perm tri tri' ray h
  have hb : (tri'.Intersect env ray isect).1 = (tri.Intersect env ray isect).1 := by
    rw [Bool.eq_iff_iff, Triangle.Intersect_hit_iff_passes, Triangle.Intersect_hit_iff_passes]
    exact hp
  refine ⟨hb, fun hit => ?_⟩
  have hit' : (tri'.Intersect env ray isect).1 = true := hb.trans hit
  refine ⟨?_, ht, ?_⟩
  · rw [Triangle.hit_point env tri' ray isect hit', Triangle.hit_point env tri ray isect hit]
    exact hq
  · rw [Triangle.Intersect_of_hit env tri' ray isect hit',
      Triangle.Intersect_of_hit env tri ray isect hit]
    show Normalize env (Cross (tri'.P 0 - tri'.P 2) (tri'.P 1 - tri'.P 2)) =
        Normalize env (Cross (tri.P 0 - tri.P 2) (tri.P 1 - tri.P 2)) ∨
      Normalize env (Cross (tri'.P 0 - tri'.P 2) (tri'.P 1 - tri'.P 2)) =
        -Normalize env (Cross (tri.P 0 - tri.P 2) (tri.P 1 - tri.P 2))
    rcases hn with hn | hn
    · exact Or.inl (by rw [hn])
    · exact Or.inr (by rw [hn, Normalize_neg])

/-- C19 on the triangle of S1 and the same triangle with the opposite winding,
under the ray of S1: both calls return true, both record `(1/4, 1/4, 0)` at
`t = 1`, and the geometric normals are `(0,0,1)` and `(0,0,-1)`. -/
theorem Triangle.Intersect_winding_independent_witness :
    (triS1Flipped.Intersect sampleEnv rayS1 isectInit).1 = true ∧
    (triS1.Intersect sampleEnv rayS1 isectInit).1 = true ∧
    (triS1Flipped.Intersect sampleEnv rayS1 isectInit).2.p = ⟨1 / 4, 1 / 4, 0⟩ ∧
    (triS1Flipped.locals rayS1).t = 1 ∧
    (triS1.Intersect sampleEnv rayS1 isectInit).2.geo_frame.n = ⟨0, 0, 1⟩ ∧
    (triS1Flipped.Intersect sampleEnv rayS1 isectInit).2.geo_frame.n = ⟨0, 0, -1⟩ := by
  have hit : (triS1.Intersect sampleEnv rayS1 isectInit).1 = true := by
    simp [Triangle.Intersect, Triangle.locals, chooseKz, Abs, Permute, shear, triS1_P0,
      triS1_P1, triS1_P2, rayS1]
    norm_num
  have hperm : List.Perm [triS1Flipped.P 0, triS1Flipped.P 1, triS1Flipped.P 2]
      [triS1.P 0, triS1.P 1, triS1.P 2] := by
    have e0 : triS1Flipped.P 0 = triS1.P 0 := rfl
    have e1 : triS1Flipped.P 1 = triS1.P 2 := rfl
    have e2 : triS1Flipped.P 2 = triS1.P 1 := rfl
    rw [e0, e1, e2]
    exact List.Perm.cons _ (List.Perm.swap _ _ [])
  obtain ⟨hb, hrest⟩ :=
    Triangle.Intersect_winding_independent sampleEnv triS1 triS1Flipped rayS1 isectInit hperm
  obtain ⟨hp, ht, _⟩ := hrest hit
  have hitF : (triS1Flipped.Intersect sampleEnv rayS1 isectInit).1 = true := hb.trans hit
  have tS1 : (triS1.locals rayS1).t = 1 := by
    simp [Triangle.locals, chooseKz, Abs, Permute, shear, triS1_P0, triS1_P1, triS1_P2, rayS1]
    norm_num
  refine ⟨hitF, hit, ?_, ht.trans tS1, ?_, ?_⟩
  · rw [hp, Triangle.hit_point sampleEnv triS1 rayS1 isectInit hit]
    simp [Triangle.locals, chooseKz, Abs, Permute, shear, triS1_P0, triS1_P1, triS1_P2, rayS1]
    norm_num
  · rw [Triangle.Intersect_of_hit sampleEnv triS1 rayS1 isectInit hit]
    show Normalize sampleEnv (Cross (triS1.P 0 - triS1.P 2) (triS1.P 1 - triS1.P 2)) = _
    rw [triS1_P0, triS1_P1, triS1_P2]
    simp [Normalize, Vector3f.Length, Vector3f.LengthSquared, Cross, sampleEnv, sampleSqrt_one]
  · rw [Triangle.Intersect_of_hit sampleEnv triS1Flipped rayS1 isectInit hitF]
    show Normalize sampleEnv (Cross (triS1Flipped.P 0 - triS1Flipped.P 2)
      (triS1Flipped.P 1 - triS1Flipped.P 2)) = _
    rw [triS1Flipped_P0, triS1Flipped_P1, triS1Flipped_P2]
    simp [Normalize, Vector3f.Length, Vector3f.LengthSquared, Cross, sampleEnv, sampleSqrt_one]

/-! ## A miss leaves the record (C20) -/

/-- C20: a miss never touches the record: whenever `Triangle::Intersect`
returns false the record after the call is the record before it, and so it is
whenever `NaiveAccelerator::Intersect` over a collection of triangles returns
false. -/
theorem miss_leaves_record (env : Externals) (ray : Ray) (isect : SurfaceIntersection) :
    (∀ tri : Triangle, (tri.Intersect env ray isect).1 = false →
      (tri.Intersect env ray isect).2 = isect) ∧
    (∀ (tris : List Triangle) (bounds : Bounds3f),
      (NaiveAccelerator.Intersect ⟨tris.map (Triangle.toShape env), bounds⟩ ray isect).1 = false →
      (NaiveAccelerator.Intersect ⟨tris.map (Triangle.toShape env), bounds⟩ ray isect).2
        = isect) := by
  constructor
  · intro tri h
    rw [Triangle.Intersect_of_miss env tri ray isect h]
  · intro tris bounds h
    have hall : ∀ x ∈ tris, (x.Intersect env ray isect).1 = false := by
      intro x hx
      by_contra hc
      have hx' : (x.Intersect env ray isect).1 = true := by simpa using hc
      have := (NaiveAccelerator.intersectLoop_triangles_iff env ray tris isect).mpr ⟨x, hx, hx'⟩
      exact Bool.false_ne_true (h.symm.trans this)
    show (NaiveAccelerator.intersectLoop ray (tris.map (Triangle.toShape env)) false isect).2 = _
    rw [NaiveAccelerator.intersectLoop_all_miss env ray tris false isect hall]

/-- C20 on the triangle of S1 and the ray of S2, which misses: the record is
unchanged, for the triangle alone and for an aggregate of the triangle of S1
and the degenerate triangle of S6. -/
theorem miss_leaves_record_witness :
    (triS1.Intersect sampleEnv rayS2 isectInit).1 = false ∧
    (triS1.Intersect sampleEnv rayS2 isectInit).2 = isectInit ∧
    (NaiveAccelerator.Intersect ⟨[triS1, triS6].map (Triangle.toShape sampleEnv), ⟨0, 0⟩⟩
      rayS2 isectInit).1 = false ∧
    (NaiveAccelerator.Intersect ⟨[triS1, triS6].map (Triangle.toShape sampleEnv), ⟨0, 0⟩⟩
      rayS2 isectInit).2 = isectInit := by
  have miss : (triS1.Intersect sampleEnv rayS2 isectInit).1 = false := by
    simp [Triangle.Intersect, Triangle.locals, chooseKz, Abs, Permute, shear, triS1_P0,
      triS1_P1, triS1_P2, rayS2]
    norm_num
  have miss6 : (triS6.Intersect sampleEnv rayS2 isectInit).1 = false := by
    simp [Triangle.Intersect, Triangle.locals, chooseKz, Abs, Permute, shear, triS6_P0,
      triS6_P1, triS6_P2, rayS2]
    norm_num
  have hagg : (NaiveAccelerator.Intersect ⟨[triS1, triS6].map (Triangle.toShape sampleEnv),
      ⟨0, 0⟩⟩ rayS2 isectInit).1 = false := by
    by_contra hc
    obtain ⟨x, hx, hx'⟩ := (NaiveAccelerator.intersectLoop_triangles_iff sampleEnv rayS2
      [triS1, triS6] isectInit).mp (by simpa using hc)
    simp only [List.mem_cons, List.mem_singleton, List.not_mem_nil, or_false] at hx
    rcases hx with rfl | rfl
    · exact Bool.false_ne_true (miss.symm.trans hx')
    · exact Bool.false_ne_true (miss6.symm.trans hx')
  have h := miss_leaves_record sampleEnv rayS2 isectInit
  exact ⟨miss, h.1 triS1 miss, hagg, h.2 [triS1, triS6] ⟨0, 0⟩ hagg⟩

end Min
